import Mathlib

/-!
Shallow embedding of the envelope-budgeting server operations
(`src/features/transactions/operations.ts`, `src/features/user/permissions.ts`,
`src/features/budgets/operations.ts`) over an explicit datastore state.

Conventions of the embedding:
* Database rows are Lean structures; the datastore is lists of rows.
* JavaScript numbers that hold money amounts are modelled as `Int`
  (exact arithmetic, as the spec treats amounts), dates as `Int` timestamps.
* A thrown `HttpError` is an `Except.error`; each operation returns the
  datastore state after whatever writes already happened together with the
  result, so a failure after a committed write keeps that write (the code
  runs its steps without a wrapping database transaction).
* JavaScript truthiness of `number | null | undefined` fields is modelled
  explicitly: `none` (null/undefined) and `some 0` are falsy.
* Prisma's `update`/`connect` on a missing row, and a foreign-key violation
  on `Transaction.envelopeId`, throw; they surface as status-500 errors here
  (unhandled datastore errors).
* Role strings are kept as `String`, mirroring the `Record<string, number>`
  hierarchy lookup with its `?? 0` fallback.
-/

namespace EnvelopeBudget

inductive TransactionType where
  | EXPENSE
  | INCOME
  | TRANSFER
deriving DecidableEq

structure Transaction where
  id : Nat
  description : String
  amount : Int
  date : Int
  type : TransactionType
  envelopeId : Option Nat
  budgetProfileId : Nat
deriving DecidableEq

structure Envelope where
  id : Nat
  budgetProfileId : Nat
  spent : Int
deriving DecidableEq

/-- A `UserBudgetProfile` row: the Membership join entity. -/
structure UserBudgetProfile where
  userId : Nat
  budgetProfileId : Nat
  role : String
deriving DecidableEq

structure HttpError where
  status : Nat
  message : String
deriving DecidableEq

/-- The datastore visible to the operations under test.  `nextTxId` models
the autoincrement id sequence for `Transaction`. -/
structure State where
  transactions : List Transaction
  envelopes : List Envelope
  memberships : List UserBudgetProfile
  nextTxId : Nat
deriving DecidableEq

/-- JS truthiness of a `number | null | undefined` value: null/undefined and 0 are falsy. -/
def truthy : Option Nat → Bool
  | none => false
  | some n => n != 0

def exceptOk {ε α : Type} : Except ε α → Bool
  | .ok _ => true
  | .error _ => false

/-- Status code of a failed result, `none` on success. -/
def errStatus {α : Type} : Except HttpError α → Option Nat
  | .ok _ => none
  | .error e => some e.status

-- ========= permissions.ts =========

/-- `roleHierarchy[role]`: `some level` for the three known roles, `none` for
any other string (the record lookup yields `undefined`). -/
def roleHierarchy (role : String) : Option Nat :=
  if role = "MEMBER" then some 1
  else if role = "ADMIN" then some 2
  else if role = "OWNER" then some 3
  else none

/-- `roleHierarchy[role] ?? 0`. -/
def roleLevel (role : String) : Nat :=
  (roleHierarchy role).getD 0

/-- `Math.min(...requiredRoles.map(role => roleHierarchy[role] ?? 0))`.
`none` models `Math.min()` of an empty array, which is `Infinity`. -/
def requiredMinLevel (requiredRoles : List String) : Option Nat :=
  requiredRoles.foldr
    (fun r acc =>
      match acc with
      | none => some (roleLevel r)
      | some m => some (min (roleLevel r) m))
    none

def findMembership (s : State) (userId budgetProfileId : Nat) : Option UserBudgetProfile :=
  s.memberships.find? (fun m => m.userId == userId && m.budgetProfileId == budgetProfileId)

/-- `getCurrentBudgetProfileId`: id of the first profile the user is linked to. -/
def getCurrentBudgetProfileId (s : State) (user : Option Nat) : Except HttpError Nat :=
  match user with
  | none => .error ⟨401, "User not authenticated"⟩
  | some uid =>
    match s.memberships.find? (fun m => m.userId == uid) with
    | none => .error ⟨404, "User is not associated with any budget profile."⟩
    | some m => .ok m.budgetProfileId

/-- `ensureUserRole`: fetch the caller's membership row for the profile and
gate on the minimum level among `requiredRoles`. -/
def ensureUserRole (s : State) (user : Option Nat) (budgetProfileId : Nat)
    (requiredRoles : List String) : Except HttpError UserBudgetProfile :=
  match user with
  | none => .error ⟨401, "User not authenticated"⟩
  | some uid =>
    match findMembership s uid budgetProfileId with
    | none => .error ⟨404, "Budget profile not found or user is not a member."⟩
    | some userBudgetProfile =>
      match requiredMinLevel requiredRoles with
      | none =>
        -- Math.min of an empty array is Infinity: the `=== 0` check is false
        -- and every finite user level is below Infinity.
        .error ⟨403, "Forbidden: Insufficient permissions."⟩
      | some requiredLevel =>
        if requiredLevel = 0 then
          .error ⟨500, "Internal server error: Invalid role configuration."⟩
        else if roleLevel userBudgetProfile.role < requiredLevel then
          .error ⟨403, "Forbidden: Insufficient permissions."⟩
        else
          .ok userBudgetProfile

-- ========= datastore primitives (Prisma semantics) =========

/-- The `spentAdjustment` formula each mutation computes:
`type === 'EXPENSE' ? amount : type === 'INCOME' ? -amount : 0`. -/
def spentAdjustmentCalc (ty : TransactionType) (amount : Int) : Int :=
  if ty = .EXPENSE then amount
  else if ty = .INCOME then -amount
  else 0

/-- Whether an `Envelope` row with this id exists. -/
def envelopeExists (envs : List Envelope) (eid : Nat) : Bool :=
  envs.any (fun e => e.id == eid)

/-- `Envelope.update { where: { id }, data: { spent: { increment: delta } } }`
applied to the row list (a decrement is an increment of the negation). -/
def incSpent (envs : List Envelope) (eid : Nat) (delta : Int) : List Envelope :=
  envs.map (fun e => if e.id == eid then { e with spent := e.spent + delta } else e)

/-- Prisma `Envelope.update` by id: throws when no row matches. -/
def envelopeUpdateSpent (s : State) (eid : Nat) (delta : Int) :
    State × Except HttpError Unit :=
  if envelopeExists s.envelopes eid then
    ({ s with envelopes := incSpent s.envelopes eid delta }, .ok ())
  else
    (s, .error ⟨500, "Record to update not found."⟩)

/-- Prisma `Transaction.create`: inserts a fresh row; a `connect` to a missing
envelope throws before anything is written.  The `budgetProfile` connect
always succeeds: the profile id comes from an existing membership row whose
foreign key guarantees the profile row exists. -/
def transactionCreate (s : State) (description : String) (amount date : Int)
    (ty : TransactionType) (link : Option Nat) (budgetProfileId : Nat) :
    State × Except HttpError Transaction :=
  match link with
  | some eid =>
    if envelopeExists s.envelopes eid then
      let t : Transaction :=
        ⟨s.nextTxId, description, amount, date, ty, some eid, budgetProfileId⟩
      ({ s with transactions := s.transactions ++ [t], nextTxId := s.nextTxId + 1 }, .ok t)
    else
      (s, .error ⟨500, "An operation failed because it depends on one or more records that were required but not found."⟩)
  | none =>
    let t : Transaction :=
      ⟨s.nextTxId, description, amount, date, ty, none, budgetProfileId⟩
    ({ s with transactions := s.transactions ++ [t], nextTxId := s.nextTxId + 1 }, .ok t)

/-- Prisma `Transaction.update` by id writing an explicit `envelopeId`:
a non-null `envelopeId` pointing at no envelope row violates the foreign key
and throws before the row is written. -/
def transactionUpdateRow (s : State) (id : Nat) (t' : Transaction)
    (newEnvelopeId : Option Nat) : State × Except HttpError Transaction :=
  match newEnvelopeId with
  | some eid =>
    if envelopeExists s.envelopes eid then
      ({ s with transactions :=
          s.transactions.map (fun t => if t.id == id then t' else t) }, .ok t')
    else
      (s, .error ⟨500, "Foreign key constraint failed on the field: envelopeId"⟩)
  | none =>
    ({ s with transactions :=
        s.transactions.map (fun t => if t.id == id then t' else t) }, .ok t')

-- ========= transactions/operations.ts =========

structure GetTransactionsInput where
  envelopeId : Option Nat
deriving DecidableEq

/-- `getTransactions`: all transactions of the resolved profile, most recent
date first (`orderBy: { date: 'desc' }`). -/
def getTransactions (s : State) (user : Option Nat) (args : GetTransactionsInput) :
    Except HttpError (List Transaction) :=
  match getCurrentBudgetProfileId s user with
  | .error e => .error e
  | .ok budgetProfileId =>
    .ok ((s.transactions.filter (fun t => t.budgetProfileId == budgetProfileId)).mergeSort
      (fun a b => b.date ≤ a.date))

structure CreateTransactionInput where
  description : String
  amount : Int
  date : Int
  type : TransactionType
  envelopeId : Option Nat
deriving DecidableEq

def createTransaction (s : State) (user : Option Nat) (args : CreateTransactionInput) :
    State × Except HttpError Transaction :=
  match user with
  | none => (s, .error ⟨401, "User not authenticated"⟩)
  | some _ =>
    match getCurrentBudgetProfileId s user with
    | .error e => (s, .error e)
    | .ok budgetProfileId =>
      match ensureUserRole s user budgetProfileId ["MEMBER", "ADMIN", "OWNER"] with
      | .error e => (s, .error e)
      | .ok _ =>
        if args.type = .TRANSFER then
          (s, .error ⟨400, "Use the transfer operation for transfers between envelopes."⟩)
        else
          -- `...(args.envelopeId && { envelope: { connect: … } })`:
          -- the link is spread in only when envelopeId is truthy.
          let link : Option Nat := if truthy args.envelopeId then args.envelopeId else none
          match transactionCreate s args.description args.amount args.date args.type
              link budgetProfileId with
          | (s1, .error e) => (s1, .error e)
          | (s1, .ok newTransaction) =>
            if truthy args.envelopeId then
              let spentAdjustment := spentAdjustmentCalc args.type args.amount
              match envelopeUpdateSpent s1 (args.envelopeId.getD 0) spentAdjustment with
              | (s2, .error e) => (s2, .error e)
              | (s2, .ok _) => (s2, .ok newTransaction)
            else
              (s1, .ok newTransaction)

structure UpdateTransactionInput where
  id : Nat
  description : Option String
  amount : Option Int
  date : Option Int
  type : Option TransactionType
  /-- Outer `none` = field absent from the update; `some none` = explicit null. -/
  envelopeId : Option (Option Nat)
deriving DecidableEq

def updateTransaction (s : State) (user : Option Nat) (args : UpdateTransactionInput) :
    State × Except HttpError Transaction :=
  match user with
  | none => (s, .error ⟨401, "User not authenticated"⟩)
  | some _ =>
    match s.transactions.find? (fun t => t.id == args.id) with
    | none => (s, .error ⟨404, "Transaction not found."⟩)
    | some originalTransaction =>
      match ensureUserRole s user originalTransaction.budgetProfileId
          ["MEMBER", "ADMIN", "OWNER"] with
      | .error e => (s, .error e)
      | .ok _ =>
        let originalEnvelopeId := originalTransaction.envelopeId
        let newEnvelopeId : Option Nat :=
          match args.envelopeId with
          | some v => v
          | none => originalEnvelopeId
        let newType := args.type.getD originalTransaction.type
        if (newType = .TRANSFER ∧ originalTransaction.type ≠ .TRANSFER) ∨
            (newType ≠ .TRANSFER ∧ originalTransaction.type = .TRANSFER) then
          (s, .error ⟨400, "Cannot change transaction type to/from TRANSFER..."⟩)
        else
          let updatedRow : Transaction :=
            { originalTransaction with
              description := args.description.getD originalTransaction.description
              amount := args.amount.getD originalTransaction.amount
              date := args.date.getD originalTransaction.date
              type := newType
              envelopeId := newEnvelopeId }
          if newType = .TRANSFER then
            -- Simple update: no envelope balance logic for transfers.
            transactionUpdateRow s args.id updatedRow newEnvelopeId
          else
            let originalAmount := originalTransaction.amount
            let newAmount := args.amount.getD originalAmount
            let originalSpentAdjustment :=
              spentAdjustmentCalc originalTransaction.type originalAmount
            let newSpentAdjustment := spentAdjustmentCalc newType newAmount
            -- 4a. Revert effect on the original envelope if it existed.
            match (if truthy originalEnvelopeId then
                envelopeUpdateSpent s (originalEnvelopeId.getD 0) (-originalSpentAdjustment)
              else (s, .ok ())) with
            | (s1, .error e) => (s1, .error e)
            | (s1, .ok _) =>
              -- 4b. Update the transaction row itself.
              match transactionUpdateRow s1 args.id updatedRow newEnvelopeId with
              | (s2, .error e) => (s2, .error e)
              | (s2, .ok updatedTransaction) =>
                -- 4c. Apply new effect on the target envelope if it exists.
                match (if truthy newEnvelopeId then
                    envelopeUpdateSpent s2 (newEnvelopeId.getD 0) newSpentAdjustment
                  else (s2, .ok ())) with
                | (s3, .error e) => (s3, .error e)
                | (s3, .ok _) => (s3, .ok updatedTransaction)

structure DeleteTransactionInput where
  id : Nat
deriving DecidableEq

def deleteTransaction (s : State) (user : Option Nat) (args : DeleteTransactionInput) :
    State × Except HttpError Transaction :=
  match user with
  | none => (s, .error ⟨401, "User not authenticated"⟩)
  | some _ =>
    match s.transactions.find? (fun t => t.id == args.id) with
    | none => (s, .error ⟨404, "Transaction not found."⟩)
    | some transaction =>
      match ensureUserRole s user transaction.budgetProfileId
          ["MEMBER", "ADMIN", "OWNER"] with
      | .error e => (s, .error e)
      | .ok _ =>
        if transaction.type = .TRANSFER then
          (s, .error ⟨400, "Deleting transfer transactions is not supported yet..."⟩)
        else
          let spentAdjustment := spentAdjustmentCalc transaction.type transaction.amount
          match (if truthy transaction.envelopeId then
              envelopeUpdateSpent s (transaction.envelopeId.getD 0) (-spentAdjustment)
            else (s, .ok ())) with
          | (s1, .error e) => (s1, .error e)
          | (s1, .ok _) =>
            ({ s1 with transactions := s1.transactions.filter (fun t => t.id != args.id) },
              .ok transaction)

-- ========= bulk import =========

structure TransactionImportData where
  description : String
  amount : Int
  date : Int
  type : TransactionType
deriving DecidableEq

structure BulkImportResult where
  successCount : Nat
  errorCount : Nat
  errors : List String
deriving DecidableEq

/-- One iteration of the bulk-import loop: the row's sign decides the stored
type, the stored amount is the absolute value, zero amounts raise inside the
per-row try/catch (counted, not aborting), and no envelope is ever linked. -/
def bulkImportStep (budgetProfileId : Nat) (acc : State × BulkImportResult)
    (txData : TransactionImportData) : State × BulkImportResult :=
  let s := acc.1
  let results := acc.2
  let originalAmount := txData.amount
  let finalAmount := |originalAmount|
  let finalType : TransactionType :=
    if originalAmount < 0 then .EXPENSE
    else if originalAmount > 0 then .INCOME
    else .EXPENSE
  if finalAmount = 0 then
    (s, { results with
      errorCount := results.errorCount + 1
      errors := results.errors ++
        ["Failed to import row (Description: " ++ txData.description ++
          "): Transaction amount cannot be zero."] })
  else
    let t : Transaction :=
      ⟨s.nextTxId, txData.description, finalAmount, txData.date, finalType, none,
        budgetProfileId⟩
    ({ s with transactions := s.transactions ++ [t], nextTxId := s.nextTxId + 1 },
      { results with successCount := results.successCount + 1 })

def bulkImportTransactions (s : State) (user : Option Nat)
    (rows : List TransactionImportData) : State × Except HttpError BulkImportResult :=
  match user with
  | none => (s, .error ⟨401, "User not authenticated"⟩)
  | some _ =>
    match getCurrentBudgetProfileId s user with
    | .error e => (s, .error e)
    | .ok budgetProfileId =>
      match ensureUserRole s user budgetProfileId ["MEMBER", "ADMIN", "OWNER"] with
      | .error e => (s, .error e)
      | .ok _ =>
        let out := rows.foldl (bulkImportStep budgetProfileId) (s, ⟨0, 0, []⟩)
        (out.1, .ok out.2)

-- ========= budgets/operations.ts: member management =========

structure UpdateMemberRoleInput where
  userId : Nat
  newRole : String
deriving DecidableEq

def updateMemberRole (s : State) (user : Option Nat) (args : UpdateMemberRoleInput) :
    State × Except HttpError UserBudgetProfile :=
  match user with
  | none => (s, .error ⟨401, "User not authenticated"⟩)
  | some currentUserId =>
    if ¬ (args.newRole = "ADMIN" ∨ args.newRole = "MEMBER") then
      (s, .error ⟨400, "Invalid target role specified. Can only change to ADMIN or MEMBER."⟩)
    else
      match getCurrentBudgetProfileId s user with
      | .error e => (s, .error e)
      | .ok budgetProfileId =>
        match ensureUserRole s user budgetProfileId ["ADMIN", "OWNER"] with
        | .error e => (s, .error e)
        | .ok currentUserLink =>
          match findMembership s args.userId budgetProfileId with
          | none => (s, .error ⟨404, "Target user is not a member of this budget profile."⟩)
          | some targetUserLink =>
            if targetUserLink.role = "OWNER" then
              (s, .error ⟨403, "Cannot change the role of the budget profile owner."⟩)
            else if currentUserLink.role = "OWNER" ∧ currentUserId = args.userId then
              (s, .error ⟨403, "Owner cannot change their own role. Transfer ownership first."⟩)
            else if currentUserLink.role = "ADMIN" ∧
                (targetUserLink.role = "ADMIN" ∨ currentUserId = args.userId) then
              (s, .error ⟨403, "Admins cannot change their own role or other Admins roles."⟩)
            else
              ({ s with memberships := s.memberships.map (fun m =>
                  if m.userId == args.userId && m.budgetProfileId == budgetProfileId then
                    { m with role := args.newRole }
                  else m) },
                .ok { targetUserLink with role := args.newRole })

structure RemoveMemberInput where
  userId : Nat
deriving DecidableEq

def removeMember (s : State) (user : Option Nat) (args : RemoveMemberInput) :
    State × Except HttpError UserBudgetProfile :=
  match user with
  | none => (s, .error ⟨401, "User not authenticated"⟩)
  | some currentUserId =>
    if currentUserId = args.userId then
      (s, .error ⟨400, "Cannot remove yourself from the budget profile."⟩)
    else
      match getCurrentBudgetProfileId s user with
      | .error e => (s, .error e)
      | .ok budgetProfileId =>
        match ensureUserRole s user budgetProfileId ["ADMIN", "OWNER"] with
        | .error e => (s, .error e)
        | .ok currentUserLink =>
          match findMembership s args.userId budgetProfileId with
          | none => (s, .error ⟨404, "Target user is not a member of this budget profile."⟩)
          | some targetUserLink =>
            if targetUserLink.role = "OWNER" then
              (s, .error ⟨403, "Cannot remove the budget profile owner."⟩)
            else if currentUserLink.role = "ADMIN" ∧ targetUserLink.role = "ADMIN" then
              (s, .error ⟨403, "Admins cannot remove other Admins."⟩)
            else
              ({ s with memberships := s.memberships.filter (fun m =>
                  ¬ (m.userId == args.userId && m.budgetProfileId == budgetProfileId)) },
                .ok targetUserLink)

-- ========= specification-side definitions =========

/-- Signed adjustment of a transaction: `+amount` for EXPENSE, `-amount` for INCOME. -/
def signedAdjustment (t : Transaction) : Int :=
  match t.type with
  | .EXPENSE => t.amount
  | .INCOME => -t.amount
  | .TRANSFER => 0

/-- Sum of signed adjustments of the non-transfer transactions linked to envelope `eid`
(every stored row is non-deleted: deletion is physical). -/
def spentSum (txs : List Transaction) (eid : Nat) : Int :=
  ((txs.filter (fun t => t.type ≠ .TRANSFER ∧ t.envelopeId = some eid)).map
    signedAdjustment).sum

/-- Contribution of one transaction row to envelope `eid`. -/
def contrib (t : Transaction) (eid : Nat) : Int :=
  if t.type ≠ .TRANSFER ∧ t.envelopeId = some eid then signedAdjustment t else 0

/-- Per-envelope balance invariant: every envelope row's `spent` equals the sum of
signed adjustments over the non-deleted, non-transfer transactions linked to it. -/
def Inv (s : State) : Prop :=
  ∀ env ∈ s.envelopes, env.spent = spentSum s.transactions env.id

/-- Datastore well-formedness guaranteed by the relational schema: transaction ids
are unique and below the autoincrement counter, and serial ids are never 0. -/
def WF (s : State) : Prop :=
  (s.transactions.map (fun t => t.id)).Nodup ∧
  (∀ t ∈ s.transactions, t.id < s.nextTxId) ∧
  (∀ env ∈ s.envelopes, env.id ≠ 0) ∧
  (∀ t ∈ s.transactions, t.envelopeId ≠ some 0)

/-- One successful transaction-mutating call. -/
inductive Step : State → State → Prop
  | create (s : State) (user : Option Nat) (args : CreateTransactionInput)
      (ok : exceptOk (createTransaction s user args).2 = true) :
      Step s (createTransaction s user args).1
  | update (s : State) (user : Option Nat) (args : UpdateTransactionInput)
      (ok : exceptOk (updateTransaction s user args).2 = true) :
      Step s (updateTransaction s user args).1
  | delete (s : State) (user : Option Nat) (args : DeleteTransactionInput)
      (ok : exceptOk (deleteTransaction s user args).2 = true) :
      Step s (deleteTransaction s user args).1

/-- Any sequence of successful create/update/delete calls. -/
def Reaches : State → State → Prop :=
  Relation.ReflTransGen Step

/-- `spent` of the envelope row with id `eid` (0 when no such row). -/
def envSpent (envs : List Envelope) (eid : Nat) : Int :=
  match envs.find? (fun e => e.id == eid) with
  | some e => e.spent
  | none => 0

/-- Conditional balance adjustment: applied only when the link is truthy,
as the operations guard each `Envelope.update` with `if (envelopeId)`. -/
def bumpIf (envs : List Envelope) (link : Option Nat) (delta : Int) : List Envelope :=
  if truthy link then incSpent envs (link.getD 0) delta else envs

/-- The envelope link an update resolves to: the incoming field when present
(possibly an explicit null), the original link otherwise. -/
def resolvedEnvelopeId (args : UpdateTransactionInput) (t : Transaction) : Option Nat :=
  match args.envelopeId with
  | some v => v
  | none => t.envelopeId

/-- The transaction row as an update rewrites it. -/
def resolvedRow (args : UpdateTransactionInput) (t : Transaction) : Transaction :=
  { t with
    description := args.description.getD t.description
    amount := args.amount.getD t.amount
    date := args.date.getD t.date
    type := args.type.getD t.type
    envelopeId := resolvedEnvelopeId args t }

/-- The transactions the bulk import inserts, as the spec words them: one
unassigned row per submitted row with non-zero amount, a negative amount
becoming an EXPENSE storing the absolute value and a positive amount an
INCOME; ids follow the autoincrement sequence. -/
def importedTxs (budgetProfileId : Nat) : Nat → List TransactionImportData → List Transaction
  | _, [] => []
  | nextId, row :: rest =>
    if row.amount = 0 then importedTxs budgetProfileId nextId rest
    else
      ⟨nextId, row.description, |row.amount|, row.date,
        (if row.amount < 0 then .EXPENSE else .INCOME), none, budgetProfileId⟩ ::
      importedTxs budgetProfileId (nextId + 1) rest

/-- The Membership rows with role OWNER of a given profile. -/
def ownerRows (s : State) (budgetProfileId : Nat) : List UserBudgetProfile :=
  s.memberships.filter (fun m => m.budgetProfileId == budgetProfileId && m.role == "OWNER")

/-- Membership (user, profile) pairs are unique - the compound primary key of
the `UserBudgetProfile` table. -/
def MembershipKeysUnique (s : State) : Prop :=
  (s.memberships.map (fun m => (m.userId, m.budgetProfileId))).Nodup

/-- A small concrete store used by the evaluation witnesses: profile 1 with
two empty envelopes, an OWNER and a MEMBER. -/
def store0 : State :=
  { transactions := []
    envelopes := [⟨1, 1, 0⟩, ⟨2, 1, 0⟩]
    memberships := [⟨1, 1, "OWNER"⟩, ⟨2, 1, "MEMBER"⟩]
    nextTxId := 1 }

/-- A store with one $50 EXPENSE in envelope 1 of profile 1 (spent 50). -/
def storeC2 : State :=
  { transactions := [⟨1, "x", 50, 100, .EXPENSE, some 1, 1⟩]
    envelopes := [⟨1, 1, 50⟩, ⟨2, 1, 0⟩]
    memberships := [⟨1, 1, "OWNER"⟩]
    nextTxId := 2 }

/-- A store with one transaction linked to envelope 2 of profile 1. -/
def storeC9 : State :=
  { transactions := [⟨1, "x", 5, 100, .EXPENSE, some 2, 1⟩]
    envelopes := [⟨1, 1, 0⟩, ⟨2, 1, 5⟩]
    memberships := [⟨1, 1, "OWNER"⟩]
    nextTxId := 2 }

-- ========= lemmas about the role hierarchy =========

theorem requiredMinLevel_cons (r : String) (rs : List String) :
    requiredMinLevel (r :: rs) =
      match requiredMinLevel rs with
      | none => some (roleLevel r)
      | some m => some (min (roleLevel r) m) := rfl

theorem requiredMinLevel_all_invalid (roles : List String) (hne : roles ≠ [])
    (hinv : ∀ r ∈ roles, roleHierarchy r = none) :
    requiredMinLevel roles = some 0 := by
  induction roles with
  | nil => exact absurd rfl hne
  | cons r rs ih =>
    have hr : roleLevel r = 0 := by
      unfold roleLevel
      rw [hinv r (List.mem_cons_self r rs)]
      rfl
    rw [requiredMinLevel_cons]
    cases h : requiredMinLevel rs with
    | none => simp [hr]
    | some m =>
      cases rs with
      | nil => simp [requiredMinLevel] at h
      | cons r2 rs2 =>
        have hrs := ih (by simp) (fun x hx => hinv x (List.mem_cons_of_mem r hx))
        rw [hrs] at h
        cases h
        simp [hr]

theorem requiredMinLevel_valid (roles : List String) (hne : roles ≠ [])
    (hvalid : ∀ r ∈ roles, 1 ≤ roleLevel r) :
    ∃ lvl, requiredMinLevel roles = some lvl ∧ 1 ≤ lvl := by
  induction roles with
  | nil => exact absurd rfl hne
  | cons r rs ih =>
    rw [requiredMinLevel_cons]
    cases h : requiredMinLevel rs with
    | none => exact ⟨roleLevel r, rfl, hvalid r (List.mem_cons_self r rs)⟩
    | some m =>
      cases rs with
      | nil => simp [requiredMinLevel] at h
      | cons r2 rs2 =>
        obtain ⟨lvl, hlvl, h1⟩ :=
          ih (by simp) (fun x hx => hvalid x (List.mem_cons_of_mem r hx))
        rw [hlvl] at h
        cases h
        exact ⟨min (roleLevel r) m, rfl, le_min (hvalid r (by simp)) h1⟩

theorem roleLevel_ge_one_of_known (r : String)
    (h : r = "MEMBER" ∨ r = "ADMIN" ∨ r = "OWNER") : 1 ≤ roleLevel r := by
  rcases h with h | h | h <;> subst h <;> decide

theorem roleLevel_ge_two_iff (r : String) :
    2 ≤ roleLevel r ↔ (r = "ADMIN" ∨ r = "OWNER") := by
  unfold roleLevel roleHierarchy
  by_cases h1 : r = "MEMBER"
  · subst h1; simp
  · by_cases h2 : r = "ADMIN"
    · subst h2; simp
    · by_cases h3 : r = "OWNER"
      · subst h3; simp
      · simp [h1, h2, h3]

-- ========= C3, C4, C10: requireRole / ensureUserRole =========

/-- C3: for a caller holding a Membership row, `ensureUserRole` with allowed
roles {ADMIN, OWNER} returns the row exactly when its role is ADMIN or OWNER
and fails Forbidden (403) for MEMBER; in general (non-empty, known allowed
roles) it succeeds exactly when the caller's hierarchy level is at least the
minimum level among the allowed roles. -/
theorem ensureUserRole_threshold (s : State) (uid pid : Nat) (m : UserBudgetProfile)
    (hfind : findMembership s uid pid = some m) :
    (ensureUserRole s (some uid) pid ["ADMIN", "OWNER"] = .ok m ↔
      (m.role = "ADMIN" ∨ m.role = "OWNER")) ∧
    (m.role = "MEMBER" →
      errStatus (ensureUserRole s (some uid) pid ["ADMIN", "OWNER"]) = some 403) ∧
    (∀ roles : List String, roles ≠ [] →
      (∀ r ∈ roles, r = "MEMBER" ∨ r = "ADMIN" ∨ r = "OWNER") →
      (exceptOk (ensureUserRole s (some uid) pid roles) = true ↔
        ∃ lvl, requiredMinLevel roles = some lvl ∧ lvl ≤ roleLevel m.role)) := by
  have hAO : requiredMinLevel ["ADMIN", "OWNER"] = some 2 := rfl
  refine ⟨?_, ?_, ?_⟩
  · constructor
    · intro hok
      by_contra hno
      have hlt : roleLevel m.role < 2 := by
        by_contra hge
        exact hno ((roleLevel_ge_two_iff m.role).mp (not_lt.mp hge))
      simp [ensureUserRole, hfind, hAO, hlt] at hok
    · intro hior
      have hlt : ¬ roleLevel m.role < 2 :=
        not_lt.mpr ((roleLevel_ge_two_iff m.role).mpr hior)
      simp [ensureUserRole, hfind, hAO, hlt]
  · intro hm
    have hlt : roleLevel m.role < 2 := by rw [hm]; decide
    simp [ensureUserRole, hfind, hAO, hlt, errStatus]
  · intro roles hne hvalid
    obtain ⟨lvl, hlvl, h1⟩ :=
      requiredMinLevel_valid roles hne
        (fun r hr => roleLevel_ge_one_of_known r (hvalid r hr))
    have hnz : ¬ lvl = 0 := by omega
    constructor
    · intro hok
      refine ⟨lvl, hlvl, ?_⟩
      by_contra hlt0
      have hlt : roleLevel m.role < lvl := by omega
      simp [ensureUserRole, hfind, hlvl, hnz, hlt, exceptOk] at hok
    · rintro ⟨lvl2, hlvl2, hle⟩
      rw [hlvl] at hlvl2
      cases hlvl2
      have hlt : ¬ roleLevel m.role < lvl := not_lt.mpr hle
      simp [ensureUserRole, hfind, hlvl, hnz, hlt, exceptOk]

/-- C3 witness: an ADMIN passes the {ADMIN, OWNER} gate, a MEMBER is rejected
with 403, and the general threshold reading agrees on a concrete store. -/
theorem ensureUserRole_threshold_witness :
    (ensureUserRole ⟨[], [], [⟨7, 3, "ADMIN"⟩], 1⟩ (some 7) 3 ["ADMIN", "OWNER"] =
      .ok ⟨7, 3, "ADMIN"⟩) ∧
    (exceptOk (ensureUserRole ⟨[], [], [⟨7, 3, "ADMIN"⟩], 1⟩ (some 7) 3 ["MEMBER"]) =
      true) := by
  have h := ensureUserRole_threshold ⟨[], [], [⟨7, 3, "ADMIN"⟩], 1⟩ 7 3
    ⟨7, 3, "ADMIN"⟩ (by decide)
  refine ⟨h.1.mpr (Or.inl rfl), ?_⟩
  exact (h.2.2 ["MEMBER"] (by decide) (by decide)).mpr ⟨1, rfl, by decide⟩

/-- C4: an authenticated caller with no Membership row for the profile gets
NotFound (404), not Forbidden, whatever the requested roles are. -/
theorem ensureUserRole_no_membership_404 (s : State) (uid pid : Nat)
    (roles : List String) (hfind : findMembership s uid pid = none) :
    errStatus (ensureUserRole s (some uid) pid roles) = some 404 := by
  simp [ensureUserRole, hfind, errStatus]

/-- C4 witness: concrete store where user 1 is a member of profile 2 only. -/
theorem ensureUserRole_no_membership_404_witness :
    errStatus (ensureUserRole ⟨[], [], [⟨1, 2, "OWNER"⟩], 1⟩ (some 1) 1
      ["ADMIN", "OWNER"]) = some 404 :=
  ensureUserRole_no_membership_404 ⟨[], [], [⟨1, 2, "OWNER"⟩], 1⟩ 1 1
    ["ADMIN", "OWNER"] (by decide)

/-- C10: with a Membership row present, a non-empty `requiredRoles` list whose
elements are all unknown roles makes `ensureUserRole` fail with 500 for every
caller; an empty list makes it fail with 403 for every caller. -/
theorem ensureUserRole_degenerate_roles (s : State) (uid pid : Nat)
    (m : UserBudgetProfile) (hfind : findMembership s uid pid = some m) :
    (∀ roles : List String, roles ≠ [] → (∀ r ∈ roles, roleHierarchy r = none) →
      errStatus (ensureUserRole s (some uid) pid roles) = some 500) ∧
    errStatus (ensureUserRole s (some uid) pid []) = some 403 := by
  constructor
  · intro roles hne hinv
    have h0 := requiredMinLevel_all_invalid roles hne hinv
    simp [ensureUserRole, hfind, h0, errStatus]
  · simp [ensureUserRole, hfind, requiredMinLevel, errStatus]

/-- C10 witness: an OWNER caller still gets 500 for `["FOO"]` and 403 for `[]`. -/
theorem ensureUserRole_degenerate_roles_witness :
    errStatus (ensureUserRole ⟨[], [], [⟨1, 1, "OWNER"⟩], 1⟩ (some 1) 1 ["FOO"]) =
      some 500 ∧
    errStatus (ensureUserRole ⟨[], [], [⟨1, 1, "OWNER"⟩], 1⟩ (some 1) 1 []) =
      some 403 := by
  have h := ensureUserRole_degenerate_roles ⟨[], [], [⟨1, 1, "OWNER"⟩], 1⟩ 1 1
    ⟨1, 1, "OWNER"⟩ (by decide)
  exact ⟨h.1 ["FOO"] (by decide) (by decide), h.2⟩

-- ========= C5, C6: TRANSFER rejections perform no writes =========

/-- C5: for an authorized caller, `createTransaction` with `type = TRANSFER`
fails with a 400 user error and performs no writes: the returned state is the
input state unchanged. -/
theorem createTransaction_transfer_no_writes (s : State) (u : Option Nat)
    (args : CreateTransactionInput) (pid : Nat) (mrow : UserBudgetProfile)
    (hpid : getCurrentBudgetProfileId s u = .ok pid)
    (hrole : ensureUserRole s u pid ["MEMBER", "ADMIN", "OWNER"] = .ok mrow)
    (hty : args.type = .TRANSFER) :
    createTransaction s u args =
      (s, .error ⟨400, "Use the transfer operation for transfers between envelopes."⟩) := by
  cases u with
  | none => simp [getCurrentBudgetProfileId] at hpid
  | some uid => simp [createTransaction, hpid, hrole, hty]

/-- C5 witness: a concrete TRANSFER creation attempt leaves the store intact. -/
theorem createTransaction_transfer_no_writes_witness :
    createTransaction ⟨[], [⟨1, 1, 0⟩], [⟨1, 1, "OWNER"⟩], 1⟩ (some 1)
      ⟨"t", 5, 0, .TRANSFER, some 1⟩ =
      (⟨[], [⟨1, 1, 0⟩], [⟨1, 1, "OWNER"⟩], 1⟩,
        .error ⟨400, "Use the transfer operation for transfers between envelopes."⟩) :=
  createTransaction_transfer_no_writes ⟨[], [⟨1, 1, 0⟩], [⟨1, 1, "OWNER"⟩], 1⟩
    (some 1) ⟨"t", 5, 0, .TRANSFER, some 1⟩ 1 ⟨1, 1, "OWNER"⟩ rfl rfl rfl

/-- C6: an update whose resolved type crosses the TRANSFER boundary in either
direction fails with a 400 user error and performs no writes. -/
theorem updateTransaction_transfer_boundary_no_writes (s : State) (u : Option Nat)
    (args : UpdateTransactionInput) (t : Transaction) (mrow : UserBudgetProfile)
    (hfind : s.transactions.find? (fun x => x.id == args.id) = some t)
    (hrole : ensureUserRole s u t.budgetProfileId ["MEMBER", "ADMIN", "OWNER"] = .ok mrow)
    (hcross : (args.type.getD t.type = .TRANSFER ∧ t.type ≠ .TRANSFER) ∨
      (args.type.getD t.type ≠ .TRANSFER ∧ t.type = .TRANSFER)) :
    updateTransaction s u args =
      (s, .error ⟨400, "Cannot change transaction type to/from TRANSFER..."⟩) := by
  cases u with
  | none => simp [ensureUserRole] at hrole
  | some uid =>
    simp only [updateTransaction, hfind, hrole]
    rw [if_pos hcross]

/-- C6 witness: turning a concrete TRANSFER row into an EXPENSE is rejected
with the store unchanged. -/
theorem updateTransaction_transfer_boundary_no_writes_witness :
    updateTransaction ⟨[⟨1, "t", 5, 0, .TRANSFER, none, 1⟩], [], [⟨1, 1, "OWNER"⟩], 2⟩
      (some 1) ⟨1, none, none, none, some .EXPENSE, none⟩ =
      (⟨[⟨1, "t", 5, 0, .TRANSFER, none, 1⟩], [], [⟨1, 1, "OWNER"⟩], 2⟩,
        .error ⟨400, "Cannot change transaction type to/from TRANSFER..."⟩) :=
  updateTransaction_transfer_boundary_no_writes
    ⟨[⟨1, "t", 5, 0, .TRANSFER, none, 1⟩], [], [⟨1, 1, "OWNER"⟩], 2⟩ (some 1)
    ⟨1, none, none, none, some .EXPENSE, none⟩ ⟨1, "t", 5, 0, .TRANSFER, none, 1⟩
    ⟨1, 1, "OWNER"⟩ rfl rfl (Or.inr ⟨by decide, rfl⟩)

-- ========= C8: bulk import =========

theorem importedTxs_unassigned (pid nextId : Nat) (rows : List TransactionImportData) :
    ∀ t ∈ importedTxs pid nextId rows, t.envelopeId = none := by
  induction rows generalizing nextId with
  | nil => intro t ht; simp [importedTxs] at ht
  | cons row rest ih =>
    intro t ht
    by_cases h0 : row.amount = 0
    · rw [importedTxs, if_pos h0] at ht
      exact ih nextId t ht
    · rw [importedTxs, if_neg h0] at ht
      rcases List.mem_cons.mp ht with h | h
      · subst h; rfl
      · exact ih (nextId + 1) t h

theorem bulkImport_foldl_spec (pid : Nat) (rows : List TransactionImportData)
    (s : State) (res : BulkImportResult) :
    (rows.foldl (bulkImportStep pid) (s, res)).1.transactions =
        s.transactions ++ importedTxs pid s.nextTxId rows ∧
    (rows.foldl (bulkImportStep pid) (s, res)).1.envelopes = s.envelopes ∧
    (rows.foldl (bulkImportStep pid) (s, res)).1.memberships = s.memberships ∧
    (rows.foldl (bulkImportStep pid) (s, res)).2.successCount =
        res.successCount + (rows.filter (fun r => decide (r.amount ≠ 0))).length ∧
    (rows.foldl (bulkImportStep pid) (s, res)).2.errorCount =
        res.errorCount + (rows.filter (fun r => decide (r.amount = 0))).length := by
  induction rows generalizing s res with
  | nil => simp [importedTxs]
  | cons row rest ih =>
    by_cases h0 : row.amount = 0
    · have habs : |row.amount| = 0 := abs_eq_zero.mpr h0
      have hstep : bulkImportStep pid (s, res) row =
          (s, { res with
            errorCount := res.errorCount + 1
            errors := res.errors ++
              ["Failed to import row (Description: " ++ row.description ++
                "): Transaction amount cannot be zero."] }) := by
        simp [bulkImportStep, habs]
      rw [List.foldl_cons, hstep]
      obtain ⟨h1, h2, h3, h4, h5⟩ := ih s
        { res with
          errorCount := res.errorCount + 1
          errors := res.errors ++
            ["Failed to import row (Description: " ++ row.description ++
              "): Transaction amount cannot be zero."] }
      refine ⟨?_, h2, h3, ?_, ?_⟩
      · rw [h1, importedTxs, if_pos h0]
      · rw [h4]; simp [List.filter_cons, h0]
      · rw [h5]; simp [List.filter_cons, h0]
        omega
    · have habs : ¬ |row.amount| = 0 := fun h => h0 (abs_eq_zero.mp h)
      have hty : (if row.amount < 0 then TransactionType.EXPENSE
            else if row.amount > 0 then TransactionType.INCOME
            else TransactionType.EXPENSE) =
          (if row.amount < 0 then TransactionType.EXPENSE
            else TransactionType.INCOME) := by
        by_cases hlt : row.amount < 0
        · simp [hlt]
        · have hgt : row.amount > 0 := by omega
          simp [hlt, hgt]
      have hstep : bulkImportStep pid (s, res) row =
          ({ s with
              transactions := s.transactions ++
                [⟨s.nextTxId, row.description, |row.amount|, row.date,
                  (if row.amount < 0 then .EXPENSE else .INCOME), none, pid⟩]
              nextTxId := s.nextTxId + 1 },
            { res with successCount := res.successCount + 1 }) := by
        simp only [bulkImportStep, if_neg habs, hty]
      rw [List.foldl_cons, hstep]
      obtain ⟨h1, h2, h3, h4, h5⟩ := ih
        { s with
          transactions := s.transactions ++
            [⟨s.nextTxId, row.description, |row.amount|, row.date,
              (if row.amount < 0 then .EXPENSE else .INCOME), none, pid⟩]
          nextTxId := s.nextTxId + 1 }
        { res with successCount := res.successCount + 1 }
      refine ⟨?_, h2, h3, ?_, ?_⟩
      · rw [h1]
        simp only [List.append_assoc, List.singleton_append]
        rw [importedTxs, if_neg h0]
      · rw [h4]; simp [List.filter_cons, h0]
        omega
      · rw [h5]; simp [List.filter_cons, h0]

/-- C8: for an authorized caller, the bulk import inserts exactly one
unassigned transaction per non-zero row - negative amounts become EXPENSE rows
storing the absolute value, positive amounts become INCOME rows - zero rows
are counted as per-row errors without aborting the batch, and no envelope row
(in particular no `spent` value) is modified. -/
theorem bulkImportTransactions_spec (s : State) (u : Option Nat)
    (rows : List TransactionImportData) (pid : Nat) (mrow : UserBudgetProfile)
    (hpid : getCurrentBudgetProfileId s u = .ok pid)
    (hrole : ensureUserRole s u pid ["MEMBER", "ADMIN", "OWNER"] = .ok mrow) :
    (bulkImportTransactions s u rows).1.envelopes = s.envelopes ∧
    (bulkImportTransactions s u rows).1.transactions =
      s.transactions ++ importedTxs pid s.nextTxId rows ∧
    (∀ t ∈ importedTxs pid s.nextTxId rows, t.envelopeId = none) ∧
    (∃ r, (bulkImportTransactions s u rows).2 = .ok r ∧
      r.successCount = (rows.filter (fun row => decide (row.amount ≠ 0))).length ∧
      r.errorCount = (rows.filter (fun row => decide (row.amount = 0))).length) := by
  cases u with
  | none => simp [getCurrentBudgetProfileId] at hpid
  | some uid =>
    have hfold := bulkImport_foldl_spec pid rows s ⟨0, 0, []⟩
    have hout : bulkImportTransactions s (some uid) rows =
        ((rows.foldl (bulkImportStep pid) (s, ⟨0, 0, []⟩)).1,
          .ok (rows.foldl (bulkImportStep pid) (s, ⟨0, 0, []⟩)).2) := by
      simp [bulkImportTransactions, hpid, hrole]
    rw [hout]
    obtain ⟨h1, h2, h3, h4, h5⟩ := hfold
    exact ⟨h2, h1, importedTxs_unassigned pid s.nextTxId rows,
      ⟨_, rfl, by simpa using h4, by simpa using h5⟩⟩

/-- C8 witness: the spec scenario - importing amounts [-20, 15, 0] yields an
EXPENSE(20) and an INCOME(15), both unassigned, one per-row error, and leaves
both envelopes' `spent` untouched. -/
theorem bulkImportTransactions_spec_witness :
    (bulkImportTransactions store0 (some 2)
        [⟨"a", -20, 5, .EXPENSE⟩, ⟨"b", 15, 6, .EXPENSE⟩, ⟨"c", 0, 7, .INCOME⟩]).1.envelopes =
      store0.envelopes ∧
    (bulkImportTransactions store0 (some 2)
        [⟨"a", -20, 5, .EXPENSE⟩, ⟨"b", 15, 6, .EXPENSE⟩, ⟨"c", 0, 7, .INCOME⟩]).1.transactions =
      store0.transactions ++
        importedTxs 1 store0.nextTxId
          [⟨"a", -20, 5, .EXPENSE⟩, ⟨"b", 15, 6, .EXPENSE⟩, ⟨"c", 0, 7, .INCOME⟩] ∧
    (∀ t ∈ importedTxs 1 store0.nextTxId
        [⟨"a", -20, 5, .EXPENSE⟩, ⟨"b", 15, 6, .EXPENSE⟩, ⟨"c", 0, 7, .INCOME⟩],
      t.envelopeId = none) ∧
    (∃ r, (bulkImportTransactions store0 (some 2)
        [⟨"a", -20, 5, .EXPENSE⟩, ⟨"b", 15, 6, .EXPENSE⟩, ⟨"c", 0, 7, .INCOME⟩]).2 = .ok r ∧
      r.successCount = 2 ∧ r.errorCount = 1) := by
  have h := bulkImportTransactions_spec store0 (some 2)
    [⟨"a", -20, 5, .EXPENSE⟩, ⟨"b", 15, 6, .EXPENSE⟩, ⟨"c", 0, 7, .INCOME⟩] 1
    ⟨2, 1, "MEMBER"⟩ rfl rfl
  obtain ⟨h1, h2, h3, r, hr, hs, he⟩ := h
  exact ⟨h1, h2, h3, r, hr, by rw [hs]; rfl, by rw [he]; rfl⟩

-- ========= C9: getTransactions =========

/-- C9 counterexample: querying with `envelopeId = 1` still returns the
transaction linked to envelope 2 - the optional envelope-id argument is not
used as a filter, contradicting the claim as stated. -/
theorem getTransactions_envelope_filter_counterexample :
    getTransactions storeC9 (some 1) ⟨some 1⟩ =
      .ok [⟨1, "x", 5, 100, .EXPENSE, some 2, 1⟩] ∧
    (⟨1, "x", 5, 100, .EXPENSE, some 2, 1⟩ : Transaction).envelopeId ≠ some 1 := by
  constructor
  · have hg : getTransactions storeC9 (some 1) ⟨some 1⟩ =
        .ok (([⟨1, "x", 5, 100, .EXPENSE, some 2, 1⟩] : List Transaction).mergeSort
          (fun a b => b.date ≤ a.date)) := rfl
    rw [hg, List.perm_singleton.mp (List.mergeSort_perm _ _)]
  · simp

/-- C9 (amended): for a caller whose current profile resolves,
`getTransactions` returns all non-deleted transactions of the resolved profile
ordered by date descending, with no pagination; the optional envelope-id
argument is accepted but ignored (no filtering is applied). -/
theorem getTransactions_amended (s : State) (u : Option Nat) (pid : Nat)
    (a1 a2 : GetTransactionsInput)
    (hpid : getCurrentBudgetProfileId s u = .ok pid) :
    ∃ l, getTransactions s u a1 = .ok l ∧
      getTransactions s u a2 = .ok l ∧
      l.Perm (s.transactions.filter (fun t => t.budgetProfileId == pid)) ∧
      l.Sorted (fun t t' => t'.date ≤ t.date) := by
  refine ⟨(s.transactions.filter (fun t => t.budgetProfileId == pid)).mergeSort
      (fun a b => b.date ≤ a.date), ?_, ?_, List.mergeSort_perm _ _, ?_⟩
  · simp [getTransactions, hpid]
  · simp [getTransactions, hpid]
  · have h := @List.sorted_mergeSort Transaction
      (fun a b => decide (b.date ≤ a.date))
      (fun a b c h1 h2 => by
        simp only [decide_eq_true_eq] at h1 h2 ⊢
        omega)
      (fun a b => by
        simp only [Bool.or_eq_true, decide_eq_true_eq]
        omega)
      (s.transactions.filter (fun t => t.budgetProfileId == pid))
    exact List.Pairwise.imp (fun hab => by simpa using hab) h

/-- C9 witness for the amended claim: on a concrete store the same sorted list
is returned for `envelopeId = 1` and for no envelope argument. -/
theorem getTransactions_amended_witness :
    ∃ l, getTransactions storeC9 (some 1) ⟨some 1⟩ = .ok l ∧
      getTransactions storeC9 (some 1) ⟨none⟩ = .ok l ∧
      l.Perm (storeC9.transactions.filter (fun t => t.budgetProfileId == 1)) ∧
      l.Sorted (fun t t' => t'.date ≤ t.date) :=
  getTransactions_amended storeC9 (some 1) 1 ⟨some 1⟩ ⟨none⟩ rfl

-- ========= C7: member management never touches the OWNER =========

theorem filter_map_invariant {α : Type} (p : α → Bool) (f : α → α) (l : List α)
    (h : ∀ x ∈ l, f x = x ∨ (p x = false ∧ p (f x) = false)) :
    (l.map f).filter p = l.filter p := by
  induction l with
  | nil => rfl
  | cons a l ih =>
    have ihl := ih (fun x hx => h x (List.mem_cons_of_mem a hx))
    rcases h a (List.mem_cons_self a l) with ha | ⟨hpa, hpfa⟩
    · simp [List.filter_cons, ha, ihl]
    · simp [List.filter_cons, hpa, hpfa, ihl]

theorem filter_sub_invariant {α : Type} (p keep : α → Bool) (l : List α)
    (h : ∀ x ∈ l, keep x = true ∨ p x = false) :
    (l.filter keep).filter p = l.filter p := by
  induction l with
  | nil => rfl
  | cons a l ih =>
    have ihl := ih (fun x hx => h x (List.mem_cons_of_mem a hx))
    rcases h a (List.mem_cons_self a l) with ha | hpa
    · simp [List.filter_cons, ha, ihl]
    · by_cases hk : keep a = true <;> simp [List.filter_cons, hk, hpa, ihl]

/-- The row `find?` returns for the compound membership key is the only row
with that key when the keys are unique. -/
theorem findMembership_unique (s : State) (uId pid : Nat) (tgt m : UserBudgetProfile)
    (hkeys : MembershipKeysUnique s)
    (hfind : findMembership s uId pid = some tgt)
    (hm : m ∈ s.memberships)
    (hkey : (m.userId == uId && m.budgetProfileId == pid) = true) : m = tgt := by
  have htgtmem : tgt ∈ s.memberships := List.mem_of_find?_eq_some hfind
  have htgtkey := List.find?_some hfind
  simp only [Bool.and_eq_true, beq_iff_eq] at hkey htgtkey
  exact List.inj_on_of_nodup_map hkeys hm htgtmem
    (by rw [hkey.1, hkey.2, htgtkey.1, htgtkey.2])

theorem updateMemberRole_shape (s : State) (u : Option Nat)
    (args : UpdateMemberRoleInput) :
    ((updateMemberRole s u args).1 = s ∧ exceptOk (updateMemberRole s u args).2 = false) ∨
    (∃ pid tgt, getCurrentBudgetProfileId s u = .ok pid ∧
      findMembership s args.userId pid = some tgt ∧
      tgt.role ≠ "OWNER" ∧
      (args.newRole = "ADMIN" ∨ args.newRole = "MEMBER") ∧
      (updateMemberRole s u args).1 =
        { s with memberships := s.memberships.map (fun m =>
            if m.userId == args.userId && m.budgetProfileId == pid then
              { m with role := args.newRole } else m) }) := by
  cases u with
  | none => left; simp [updateMemberRole, exceptOk]
  | some uid =>
    by_cases hval : args.newRole = "ADMIN" ∨ args.newRole = "MEMBER"
    · have hcond : ¬ ¬ (args.newRole = "ADMIN" ∨ args.newRole = "MEMBER") :=
        not_not_intro hval
      cases hpid : getCurrentBudgetProfileId s (some uid) with
      | error e => left; simp [updateMemberRole, hcond, hpid, exceptOk]
      | ok pid =>
        cases hrole : ensureUserRole s (some uid) pid ["ADMIN", "OWNER"] with
        | error e => left; simp [updateMemberRole, hcond, hpid, hrole, exceptOk]
        | ok link =>
          cases htgt : findMembership s args.userId pid with
          | none => left; simp [updateMemberRole, hcond, hpid, hrole, htgt, exceptOk]
          | some tgt =>
            by_cases hown : tgt.role = "OWNER"
            · left; simp [updateMemberRole, hcond, hpid, hrole, htgt, hown, exceptOk]
            · by_cases hself : link.role = "OWNER" ∧ uid = args.userId
              · left
                obtain ⟨hs1, hs2⟩ := hself
                subst hs2
                simp [updateMemberRole, hcond, hpid, hrole, htgt, hown, hs1, exceptOk]
              · by_cases hadm : link.role = "ADMIN" ∧
                    (tgt.role = "ADMIN" ∨ uid = args.userId)
                · left
                  obtain ⟨ha1, ha2⟩ := hadm
                  rcases ha2 with ha2 | ha2
                  · simp [updateMemberRole, hcond, hpid, hrole, htgt, hown, hself, ha1,
                      ha2, exceptOk]
                  · subst ha2
                    simp [updateMemberRole, hcond, hpid, hrole, htgt, hown, hself, ha1,
                      exceptOk]
                · right
                  exact ⟨pid, tgt, rfl, htgt, hown, hval, by
                    simp [updateMemberRole, hcond, hpid, hrole, htgt, hown, hself, hadm]⟩
    · left; simp [updateMemberRole, hval, exceptOk]

theorem removeMember_shape (s : State) (u : Option Nat) (args : RemoveMemberInput) :
    ((removeMember s u args).1 = s ∧ exceptOk (removeMember s u args).2 = false) ∨
    (∃ pid tgt, getCurrentBudgetProfileId s u = .ok pid ∧
      findMembership s args.userId pid = some tgt ∧
      tgt.role ≠ "OWNER" ∧
      (removeMember s u args).1 =
        { s with memberships := s.memberships.filter (fun m =>
            ¬ (m.userId == args.userId && m.budgetProfileId == pid)) }) := by
  cases u with
  | none => left; simp [removeMember, exceptOk]
  | some uid =>
    by_cases hselfid : uid = args.userId
    · left; simp [removeMember, hselfid, exceptOk]
    · cases hpid : getCurrentBudgetProfileId s (some uid) with
      | error e => left; simp [removeMember, hselfid, hpid, exceptOk]
      | ok pid =>
        cases hrole : ensureUserRole s (some uid) pid ["ADMIN", "OWNER"] with
        | error e => left; simp [removeMember, hselfid, hpid, hrole, exceptOk]
        | ok link =>
          cases htgt : findMembership s args.userId pid with
          | none => left; simp [removeMember, hselfid, hpid, hrole, htgt, exceptOk]
          | some tgt =>
            by_cases hown : tgt.role = "OWNER"
            · left; simp [removeMember, hselfid, hpid, hrole, htgt, hown, exceptOk]
            · by_cases hadm : link.role = "ADMIN" ∧ tgt.role = "ADMIN"
              · left; simp [removeMember, hselfid, hpid, hrole, htgt, hown, hadm, exceptOk]
              · right
                exact ⟨pid, tgt, rfl, htgt, hown, by
                  simp [removeMember, hselfid, hpid, hrole, htgt, hown, hadm]⟩

/-- `ownerRows` is untouched by any `updateMemberRole` call when keys are unique. -/
theorem ownerRows_updateMemberRole (s : State) (u : Option Nat)
    (args : UpdateMemberRoleInput) (pid' : Nat) (hkeys : MembershipKeysUnique s) :
    ownerRows (updateMemberRole s u args).1 pid' = ownerRows s pid' := by
  rcases updateMemberRole_shape s u args with ⟨heq, _⟩ | ⟨pid, tgt, _, htgt, hown, hval, heq⟩
  · rw [heq]
  · rw [heq]
    unfold ownerRows
    simp only
    refine filter_map_invariant _ _ _ (fun m hm => ?_)
    by_cases hk : (m.userId == args.userId && m.budgetProfileId == pid) = true
    · right
      have hmt : m = tgt := findMembership_unique s args.userId pid tgt m hkeys htgt hm hk
      have hnr : args.newRole ≠ "OWNER" := by
        rcases hval with h | h <;> rw [h] <;> decide
      constructor
      · simp [hmt, hown]
      · simp [hk, hnr]
    · left
      simp only [hk]
      rw [if_neg]
      simp at hk
      simp [hk]

/-- `ownerRows` is untouched by any `removeMember` call when keys are unique. -/
theorem ownerRows_removeMember (s : State) (u : Option Nat)
    (args : RemoveMemberInput) (pid' : Nat) (hkeys : MembershipKeysUnique s) :
    ownerRows (removeMember s u args).1 pid' = ownerRows s pid' := by
  rcases removeMember_shape s u args with ⟨heq, _⟩ | ⟨pid, tgt, _, htgt, hown, heq⟩
  · rw [heq]
  · rw [heq]
    unfold ownerRows
    simp only
    refine filter_sub_invariant _ _ _ (fun m hm => ?_)
    by_cases hk : (m.userId == args.userId && m.budgetProfileId == pid) = true
    · right
      have hmt : m = tgt := findMembership_unique s args.userId pid tgt m hkeys htgt hm hk
      simp [hmt, hown]
    · left
      simp [hk]

/-- C7: neither `updateMemberRole` nor `removeMember` can ever change or
remove an OWNER membership: when the target row's role is OWNER both
operations fail and leave the store unchanged, and (with unique membership
keys) every call of either operation preserves the set of OWNER rows of every
profile, hence the one-OWNER-per-profile invariant. -/
theorem memberOps_never_touch_owner (s : State) (u : Option Nat)
    (targetUserId pid : Nat) (newRole : String) (tgt : UserBudgetProfile)
    (hkeys : MembershipKeysUnique s)
    (hpid : getCurrentBudgetProfileId s u = .ok pid)
    (htgt : findMembership s targetUserId pid = some tgt)
    (hOwner : tgt.role = "OWNER") :
    ((updateMemberRole s u ⟨targetUserId, newRole⟩).1 = s ∧
      exceptOk (updateMemberRole s u ⟨targetUserId, newRole⟩).2 = false) ∧
    ((removeMember s u ⟨targetUserId⟩).1 = s ∧
      exceptOk (removeMember s u ⟨targetUserId⟩).2 = false) ∧
    (∀ (u' : Option Nat) (args' : UpdateMemberRoleInput) (p : Nat),
      ownerRows (updateMemberRole s u' args').1 p = ownerRows s p) ∧
    (∀ (u' : Option Nat) (args' : RemoveMemberInput) (p : Nat),
      ownerRows (removeMember s u' args').1 p = ownerRows s p) := by
  refine ⟨?_, ?_, fun u' args' p => ownerRows_updateMemberRole s u' args' p hkeys,
    fun u' args' p => ownerRows_removeMember s u' args' p hkeys⟩
  · rcases updateMemberRole_shape s u ⟨targetUserId, newRole⟩ with
      h | ⟨pid2, tgt2, hpid2, htgt2, hown2, _, _⟩
    · exact h
    · rw [hpid] at hpid2
      cases hpid2
      rw [htgt] at htgt2
      cases htgt2
      exact absurd hOwner hown2
  · rcases removeMember_shape s u ⟨targetUserId⟩ with
      h | ⟨pid2, tgt2, hpid2, htgt2, hown2, _⟩
    · exact h
    · rw [hpid] at hpid2
      cases hpid2
      rw [htgt] at htgt2
      cases htgt2
      exact absurd hOwner hown2

/-- C7 witness: an ADMIN caller cannot demote or remove the OWNER of profile 1,
and the OWNER row set of profile 1 survives concrete calls of both operations. -/
theorem memberOps_never_touch_owner_witness :
    ((updateMemberRole store0 (some 2) ⟨1, "MEMBER"⟩).1 = store0 ∧
      exceptOk (updateMemberRole store0 (some 2) ⟨1, "MEMBER"⟩).2 = false) ∧
    ((removeMember store0 (some 2) ⟨1⟩).1 = store0 ∧
      exceptOk (removeMember store0 (some 2) ⟨1⟩).2 = false) ∧
    ownerRows (updateMemberRole store0 (some 1) ⟨2, "ADMIN"⟩).1 1 = ownerRows store0 1 ∧
    ownerRows (removeMember store0 (some 1) ⟨2⟩).1 1 = ownerRows store0 1 := by
  have h := memberOps_never_touch_owner store0 (some 2) 1 1 "MEMBER" ⟨1, 1, "OWNER"⟩
    (by unfold MembershipKeysUnique; decide) rfl rfl rfl
  exact ⟨h.1, h.2.1, h.2.2.1 (some 1) ⟨2, "ADMIN"⟩ 1, h.2.2.2 (some 1) ⟨2⟩ 1⟩

-- ========= ledger arithmetic lemmas =========

theorem signedAdjustment_eq_calc (t : Transaction) :
    signedAdjustment t = spentAdjustmentCalc t.type t.amount := by
  cases h : t.type <;> simp [signedAdjustment, spentAdjustmentCalc, h]

theorem contrib_of_link (t : Transaction) (e : Nat) (hty : t.type ≠ .TRANSFER) :
    contrib t e = if t.envelopeId = some e then signedAdjustment t else 0 := by
  unfold contrib
  by_cases hl : t.envelopeId = some e <;> simp [hty, hl]

theorem contrib_of_transfer (t : Transaction) (e : Nat) (hty : t.type = .TRANSFER) :
    contrib t e = 0 := by
  unfold contrib
  simp [hty]

theorem contrib_of_none (t : Transaction) (e : Nat) (hl : t.envelopeId = none) :
    contrib t e = 0 := by
  unfold contrib
  simp [hl]

theorem spentSum_nil (e : Nat) : spentSum [] e = 0 := rfl

theorem spentSum_cons (x : Transaction) (l : List Transaction) (e : Nat) :
    spentSum (x :: l) e = contrib x e + spentSum l e := by
  by_cases hp : x.type ≠ TransactionType.TRANSFER ∧ x.envelopeId = some e
  · simp [spentSum, List.filter_cons, hp, contrib]
  · simp [spentSum, List.filter_cons, hp, contrib]

theorem spentSum_append (l l' : List Transaction) (e : Nat) :
    spentSum (l ++ l') e = spentSum l e + spentSum l' e := by
  induction l with
  | nil => simp [spentSum_nil]
  | cons x xs ih => simp [spentSum_cons, ih]; ring

theorem map_replace_eq_self (l : List Transaction) (i : Nat) (t' : Transaction)
    (h : ∀ x ∈ l, x.id ≠ i) :
    l.map (fun x => if x.id == i then t' else x) = l := by
  induction l with
  | nil => rfl
  | cons x xs ih =>
    have hx : ¬ ((x.id == i) = true) := by
      simp only [beq_iff_eq]
      exact h x (List.mem_cons_self x xs)
    rw [List.map_cons, if_neg hx, ih (fun y hy => h y (List.mem_cons_of_mem x hy))]

theorem filter_ne_eq_self (l : List Transaction) (i : Nat)
    (h : ∀ x ∈ l, x.id ≠ i) :
    l.filter (fun x => x.id != i) = l := by
  induction l with
  | nil => rfl
  | cons x xs ih =>
    have hx : (x.id != i) = true := by
      simp only [bne_iff_ne, ne_eq]
      exact h x (List.mem_cons_self x xs)
    rw [List.filter_cons, if_pos hx, ih (fun y hy => h y (List.mem_cons_of_mem x hy))]

theorem nodup_head_not_mem (x : Transaction) (xs : List Transaction)
    (hnd : ((x :: xs).map (fun t => t.id)).Nodup) :
    ∀ y ∈ xs, y.id ≠ x.id := by
  intro y hy
  rw [List.map_cons, List.nodup_cons] at hnd
  intro hcontra
  exact hnd.1 (hcontra ▸ List.mem_map_of_mem (fun t => t.id) hy)

theorem spentSum_replace (l : List Transaction) (i : Nat) (t t' : Transaction) (e : Nat)
    (hnd : (l.map (fun x => x.id)).Nodup)
    (hfind : l.find? (fun x => x.id == i) = some t) :
    spentSum (l.map (fun x => if x.id == i then t' else x)) e =
      spentSum l e - contrib t e + contrib t' e := by
  induction l with
  | nil => simp at hfind
  | cons x xs ih =>
    by_cases hx : (x.id == i) = true
    · simp only [List.find?_cons, hx] at hfind
      injection hfind with hxt
      subst hxt
      have hxs : ∀ y ∈ xs, y.id ≠ i :=
        fun y hy => (beq_iff_eq.mp hx) ▸ nodup_head_not_mem x xs hnd y hy
      rw [List.map_cons, if_pos hx, map_replace_eq_self xs i t' hxs,
        spentSum_cons, spentSum_cons]
      ring
    · have hx' : (x.id == i) = false := by simpa using hx
      simp only [List.find?_cons, hx'] at hfind
      have hnd' : (xs.map (fun x => x.id)).Nodup := by
        rw [List.map_cons, List.nodup_cons] at hnd
        exact hnd.2
      rw [List.map_cons, if_neg hx, spentSum_cons, spentSum_cons, ih hnd' hfind]
      ring

theorem spentSum_erase (l : List Transaction) (i : Nat) (t : Transaction) (e : Nat)
    (hnd : (l.map (fun x => x.id)).Nodup)
    (hfind : l.find? (fun x => x.id == i) = some t) :
    spentSum (l.filter (fun x => x.id != i)) e = spentSum l e - contrib t e := by
  induction l with
  | nil => simp at hfind
  | cons x xs ih =>
    by_cases hx : (x.id == i) = true
    · simp only [List.find?_cons, hx] at hfind
      injection hfind with hxt
      subst hxt
      have hxs : ∀ y ∈ xs, y.id ≠ i :=
        fun y hy => (beq_iff_eq.mp hx) ▸ nodup_head_not_mem x xs hnd y hy
      have hxne : ¬ ((x.id != i) = true) := by simpa using beq_iff_eq.mp hx
      rw [List.filter_cons, if_neg hxne, filter_ne_eq_self xs i hxs, spentSum_cons]
      ring
    · have hx' : (x.id == i) = false := by simpa using hx
      simp only [List.find?_cons, hx'] at hfind
      have hnd' : (xs.map (fun x => x.id)).Nodup := by
        rw [List.map_cons, List.nodup_cons] at hnd
        exact hnd.2
      have hxne : (x.id != i) = true := by simpa using hx
      rw [List.filter_cons, if_pos hxne, spentSum_cons, spentSum_cons, ih hnd' hfind]
      ring

-- ========= envelope-list lemmas =========

theorem incSpent_id (x : Envelope) (i : Nat) (δ : Int) :
    (if x.id == i then { x with spent := x.spent + δ } else x).id = x.id := by
  by_cases hx : (x.id == i) = true <;> simp [hx]

theorem envelopeExists_incSpent (envs : List Envelope) (i : Nat) (δ : Int) (e : Nat) :
    envelopeExists (incSpent envs i δ) e = envelopeExists envs e := by
  induction envs with
  | nil => rfl
  | cons x xs ih =>
    unfold envelopeExists incSpent at ih ⊢
    simp only [List.map_cons, List.any_cons, incSpent_id]
    rw [ih]

theorem envelopeExists_bumpIf (envs : List Envelope) (link : Option Nat) (δ : Int)
    (e : Nat) :
    envelopeExists (bumpIf envs link δ) e = envelopeExists envs e := by
  unfold bumpIf
  by_cases ht : truthy link = true
  · rw [if_pos ht, envelopeExists_incSpent]
  · rw [if_neg ht]

theorem row_after_bumpIf (envs : List Envelope) (link : Option Nat) (δ : Int) :
    ∀ env' ∈ bumpIf envs link δ, ∃ env, env ∈ envs ∧ env'.id = env.id ∧
      env'.spent = env.spent + (if link = some env.id ∧ env.id ≠ 0 then δ else 0) := by
  intro env' h'
  unfold bumpIf at h'
  by_cases ht : truthy link = true
  · rw [if_pos ht] at h'
    unfold incSpent at h'
    obtain ⟨env, henv, heq⟩ := List.mem_map.mp h'
    cases link with
    | none => simp [truthy] at ht
    | some k =>
      have hk : k ≠ 0 := by simpa [truthy] using ht
      refine ⟨env, henv, ?_, ?_⟩
      · rw [← heq, Option.getD_some, incSpent_id]
      · rw [← heq, Option.getD_some]
        by_cases hx : (env.id == k) = true
        · have hxe : env.id = k := beq_iff_eq.mp hx
          rw [if_pos hx]
          have hcond : some k = some env.id ∧ env.id ≠ 0 := by
            constructor
            · rw [hxe]
            · rw [hxe]; exact hk
          rw [if_pos hcond]
        · rw [if_neg hx]
          have hcond : ¬ (some k = some env.id ∧ env.id ≠ 0) := by
            rintro ⟨hc, -⟩
            exact hx (beq_iff_eq.mpr (Option.some.inj hc).symm)
          rw [if_neg hcond]
          ring
  · rw [if_neg ht] at h'
    refine ⟨env', h', rfl, ?_⟩
    have hcond : ¬ (link = some env'.id ∧ env'.id ≠ 0) := by
      rintro ⟨hc, hnz⟩
      apply ht
      rw [hc]
      simpa [truthy]
    rw [if_neg hcond]
    ring

-- ========= success shapes of the three mutations =========

theorem createTransaction_ok_shape (s : State) (u : Option Nat)
    (args : CreateTransactionInput)
    (hok : exceptOk (createTransaction s u args).2 = true) :
    ∃ pid, args.type ≠ .TRANSFER ∧
      ((truthy args.envelopeId = false ∧
        (createTransaction s u args).1 =
          { s with
            transactions := s.transactions ++
              [⟨s.nextTxId, args.description, args.amount, args.date, args.type,
                none, pid⟩]
            nextTxId := s.nextTxId + 1 }) ∨
      (∃ eid, args.envelopeId = some eid ∧ eid ≠ 0 ∧
        envelopeExists s.envelopes eid = true ∧
        (createTransaction s u args).1 =
          { s with
            transactions := s.transactions ++
              [⟨s.nextTxId, args.description, args.amount, args.date, args.type,
                some eid, pid⟩]
            envelopes := incSpent s.envelopes eid
              (spentAdjustmentCalc args.type args.amount)
            nextTxId := s.nextTxId + 1 })) := by
  cases u with
  | none => simp [createTransaction, exceptOk] at hok
  | some uid =>
    cases hpid : getCurrentBudgetProfileId s (some uid) with
    | error e => simp [createTransaction, hpid, exceptOk] at hok
    | ok pid =>
      cases hrole : ensureUserRole s (some uid) pid ["MEMBER", "ADMIN", "OWNER"] with
      | error e => simp [createTransaction, hpid, hrole, exceptOk] at hok
      | ok link =>
        by_cases hty : args.type = TransactionType.TRANSFER
        · simp [createTransaction, hpid, hrole, hty, exceptOk] at hok
        · refine ⟨pid, hty, ?_⟩
          by_cases htr : truthy args.envelopeId = true
          · cases hargs : args.envelopeId with
            | none => rw [hargs] at htr; simp [truthy] at htr
            | some eid =>
              have htr2 : truthy (some eid) = true := hargs ▸ htr
              have hnz : eid ≠ 0 := by simpa [truthy] using htr2
              cases hex : envelopeExists s.envelopes eid with
              | false =>
                simp [createTransaction, hpid, hrole, hty, htr2, hargs,
                  transactionCreate, hex, exceptOk] at hok
              | true =>
                right
                refine ⟨eid, rfl, hnz, hex, ?_⟩
                simp [createTransaction, hpid, hrole, hty, htr2, hargs,
                  transactionCreate, hex, envelopeUpdateSpent]
          · left
            have htr' : truthy args.envelopeId = false := by
              simpa using htr
            refine ⟨htr', ?_⟩
            simp [createTransaction, hpid, hrole, hty, htr, transactionCreate]

theorem deleteTransaction_ok_shape (s : State) (u : Option Nat)
    (args : DeleteTransactionInput)
    (hok : exceptOk (deleteTransaction s u args).2 = true) :
    ∃ t, s.transactions.find? (fun x => x.id == args.id) = some t ∧
      t.type ≠ .TRANSFER ∧
      (truthy t.envelopeId = true →
        envelopeExists s.envelopes (t.envelopeId.getD 0) = true) ∧
      (deleteTransaction s u args).1 =
        { s with
          transactions := s.transactions.filter (fun x => x.id != args.id)
          envelopes := bumpIf s.envelopes t.envelopeId
            (-(spentAdjustmentCalc t.type t.amount)) } := by
  cases u with
  | none => simp [deleteTransaction, exceptOk] at hok
  | some uid =>
    cases hfind : s.transactions.find? (fun x => x.id == args.id) with
    | none => simp [deleteTransaction, hfind, exceptOk] at hok
    | some t =>
      cases hrole : ensureUserRole s (some uid) t.budgetProfileId
          ["MEMBER", "ADMIN", "OWNER"] with
      | error e => simp [deleteTransaction, hfind, hrole, exceptOk] at hok
      | ok link =>
        by_cases hty : t.type = TransactionType.TRANSFER
        · simp [deleteTransaction, hfind, hrole, hty, exceptOk] at hok
        · refine ⟨t, rfl, hty, ?_, ?_⟩
          · intro htr
            by_contra hex
            have hex' : envelopeExists s.envelopes (t.envelopeId.getD 0) = false := by
              simpa using hex
            simp [deleteTransaction, hfind, hrole, hty, htr, envelopeUpdateSpent,
              hex', exceptOk] at hok
          · by_cases htr : truthy t.envelopeId = true
            · cases hex : envelopeExists s.envelopes (t.envelopeId.getD 0) with
              | false =>
                simp [deleteTransaction, hfind, hrole, hty, htr,
                  envelopeUpdateSpent, hex, exceptOk] at hok
              | true =>
                simp [deleteTransaction, hfind, hrole, hty, htr,
                  envelopeUpdateSpent, hex, bumpIf]
            · have htr' : truthy t.envelopeId = false := by simpa using htr
              simp [deleteTransaction, hfind, hrole, hty, htr', bumpIf]

theorem updateTransaction_ok_shape (s : State) (u : Option Nat)
    (args : UpdateTransactionInput)
    (hok : exceptOk (updateTransaction s u args).2 = true) :
    ∃ t, s.transactions.find? (fun x => x.id == args.id) = some t ∧
      (resolvedEnvelopeId args t = none ∨
        ∃ eid, resolvedEnvelopeId args t = some eid ∧
          envelopeExists s.envelopes eid = true) ∧
      ((args.type.getD t.type = .TRANSFER ∧ t.type = .TRANSFER ∧
        (updateTransaction s u args).1 =
          { s with transactions := s.transactions.map (fun x =>
              if x.id == args.id then resolvedRow args t else x) }) ∨
      (args.type.getD t.type ≠ .TRANSFER ∧ t.type ≠ .TRANSFER ∧
        (updateTransaction s u args).1 =
          { s with
            transactions := s.transactions.map (fun x =>
              if x.id == args.id then resolvedRow args t else x)
            envelopes := bumpIf
              (bumpIf s.envelopes t.envelopeId
                (-(spentAdjustmentCalc t.type t.amount)))
              (resolvedEnvelopeId args t)
              (spentAdjustmentCalc (args.type.getD t.type)
                (args.amount.getD t.amount)) })) := by
  cases u with
  | none => simp [updateTransaction, exceptOk] at hok
  | some uid =>
    cases hfind : s.transactions.find? (fun x => x.id == args.id) with
    | none => simp [updateTransaction, hfind, exceptOk] at hok
    | some t =>
      cases hrole : ensureUserRole s (some uid) t.budgetProfileId
          ["MEMBER", "ADMIN", "OWNER"] with
      | error e => simp [updateTransaction, hfind, hrole, exceptOk] at hok
      | ok link =>
        by_cases hcross : (args.type.getD t.type = TransactionType.TRANSFER ∧
            t.type ≠ TransactionType.TRANSFER) ∨
            (args.type.getD t.type ≠ TransactionType.TRANSFER ∧
            t.type = TransactionType.TRANSFER)
        · simp [updateTransaction, hfind, hrole, hcross, exceptOk] at hok
        · by_cases hTy : args.type.getD t.type = TransactionType.TRANSFER
          · -- simple update path for transfers
            have htt : t.type = TransactionType.TRANSFER := by
              by_contra hno
              exact hcross (Or.inl ⟨hTy, hno⟩)
            have hTy2 : args.type.getD TransactionType.TRANSFER =
                TransactionType.TRANSFER := htt ▸ hTy
            cases hAE : args.envelopeId with
            | some v =>
              cases v with
              | none =>
                refine ⟨t, rfl, Or.inl (by simp [resolvedEnvelopeId, hAE]), Or.inl
                  ⟨hTy, htt, ?_⟩⟩
                simp [updateTransaction, hfind, hrole, hcross, hTy, hTy2, htt, hAE,
                  transactionUpdateRow, resolvedRow, resolvedEnvelopeId]
              | some eid =>
                cases hex : envelopeExists s.envelopes eid with
                | false =>
                  simp [updateTransaction, hfind, hrole, hcross, hTy, hTy2, htt, hAE,
                    transactionUpdateRow, hex, exceptOk] at hok
                | true =>
                  refine ⟨t, rfl,
                    Or.inr ⟨eid, by simp [resolvedEnvelopeId, hAE], hex⟩, Or.inl
                    ⟨hTy, htt, ?_⟩⟩
                  simp [updateTransaction, hfind, hrole, hcross, hTy, hTy2, htt, hAE,
                    transactionUpdateRow, hex, resolvedRow, resolvedEnvelopeId]
            | none =>
              cases hTE : t.envelopeId with
              | none =>
                refine ⟨t, rfl,
                  Or.inl (by simp [resolvedEnvelopeId, hAE, hTE]), Or.inl
                  ⟨hTy, htt, ?_⟩⟩
                simp [updateTransaction, hfind, hrole, hcross, hTy, hTy2, htt, hAE, hTE,
                  transactionUpdateRow, resolvedRow, resolvedEnvelopeId]
              | some a =>
                cases hex : envelopeExists s.envelopes a with
                | false =>
                  simp [updateTransaction, hfind, hrole, hcross, hTy, hTy2, htt, hAE, hTE,
                    transactionUpdateRow, hex, exceptOk] at hok
                | true =>
                  refine ⟨t, rfl,
                    Or.inr ⟨a, by simp [resolvedEnvelopeId, hAE, hTE], hex⟩, Or.inl
                    ⟨hTy, htt, ?_⟩⟩
                  simp [updateTransaction, hfind, hrole, hcross, hTy, hTy2, htt, hAE, hTE,
                    transactionUpdateRow, hex, resolvedRow, resolvedEnvelopeId]
          · -- balance-adjusting path
            have htt : t.type ≠ TransactionType.TRANSFER := fun hc =>
              hcross (Or.inr ⟨hTy, hc⟩)
            cases hTE : t.envelopeId with
            | some a =>
              by_cases ha0 : a = 0
              · -- `some 0` is falsy: step 4a is skipped
                subst ha0
                cases hAE : args.envelopeId with
                | some v =>
                  cases v with
                  | none =>
                    refine ⟨t, rfl, Or.inl (by simp [resolvedEnvelopeId, hAE]),
                      Or.inr ⟨hTy, htt, ?_⟩⟩
                    simp [updateTransaction, hfind, hrole, hcross, hTy, htt, hAE, hTE,
                      truthy, transactionUpdateRow, bumpIf, resolvedRow,
                      resolvedEnvelopeId]
                  | some eid =>
                    cases hex : envelopeExists s.envelopes eid with
                    | false =>
                      simp [updateTransaction, hfind, hrole, hcross, hTy, htt, hAE, hTE,
                        truthy, transactionUpdateRow, hex, exceptOk] at hok
                    | true =>
                      by_cases he0 : eid = 0
                      · subst he0
                        refine ⟨t, rfl,
                          Or.inr ⟨0, by simp [resolvedEnvelopeId, hAE], hex⟩,
                          Or.inr ⟨hTy, htt, ?_⟩⟩
                        simp [updateTransaction, hfind, hrole, hcross, hTy, htt, hAE,
                          hTE, truthy, transactionUpdateRow, hex,
                          envelopeUpdateSpent, bumpIf, resolvedRow,
                          resolvedEnvelopeId]
                      · refine ⟨t, rfl,
                          Or.inr ⟨eid, by simp [resolvedEnvelopeId, hAE], hex⟩,
                          Or.inr ⟨hTy, htt, ?_⟩⟩
                        simp [updateTransaction, hfind, hrole, hcross, hTy, htt, hAE,
                          hTE, truthy, he0, transactionUpdateRow, hex,
                          envelopeUpdateSpent, bumpIf, resolvedRow,
                          resolvedEnvelopeId]
                | none =>
                  -- resolved link stays `some 0`, still falsy
                  cases hex : envelopeExists s.envelopes 0 with
                  | false =>
                    simp [updateTransaction, hfind, hrole, hcross, hTy, htt, hAE, hTE,
                      truthy, transactionUpdateRow, hex, exceptOk] at hok
                  | true =>
                    refine ⟨t, rfl,
                      Or.inr ⟨0, by simp [resolvedEnvelopeId, hAE, hTE], hex⟩,
                      Or.inr ⟨hTy, htt, ?_⟩⟩
                    simp [updateTransaction, hfind, hrole, hcross, hTy, htt, hAE, hTE,
                      truthy, transactionUpdateRow, hex, envelopeUpdateSpent,
                      bumpIf, resolvedRow, resolvedEnvelopeId]
              · -- truthy original link: step 4a must find the envelope
                cases hex1 : envelopeExists s.envelopes a with
                | false =>
                  simp [updateTransaction, hfind, hrole, hcross, hTy, htt, hTE, truthy,
                    ha0, envelopeUpdateSpent, hex1, exceptOk] at hok
                | true =>
                  cases hAE : args.envelopeId with
                  | some v =>
                    cases v with
                    | none =>
                      refine ⟨t, rfl, Or.inl (by simp [resolvedEnvelopeId, hAE]),
                        Or.inr ⟨hTy, htt, ?_⟩⟩
                      simp [updateTransaction, hfind, hrole, hcross, hTy, htt, hAE, hTE,
                        truthy, ha0, envelopeUpdateSpent, hex1,
                        transactionUpdateRow, bumpIf, resolvedRow,
                        resolvedEnvelopeId]
                    | some eid =>
                      cases hex2 : envelopeExists s.envelopes eid with
                      | false =>
                        have hex2' : envelopeExists
                            (incSpent s.envelopes a
                              (-(spentAdjustmentCalc t.type t.amount))) eid = false := by
                          rw [envelopeExists_incSpent, hex2]
                        simp [updateTransaction, hfind, hrole, hcross, hTy, htt, hAE,
                          hTE, truthy, ha0, envelopeUpdateSpent, hex1, hex2',
                          transactionUpdateRow, exceptOk] at hok
                      | true =>
                        have hex2' : envelopeExists
                            (incSpent s.envelopes a
                              (-(spentAdjustmentCalc t.type t.amount))) eid = true := by
                          rw [envelopeExists_incSpent, hex2]
                        by_cases he0 : eid = 0
                        · subst he0
                          refine ⟨t, rfl,
                            Or.inr ⟨0, by simp [resolvedEnvelopeId, hAE], hex2⟩,
                            Or.inr ⟨hTy, htt, ?_⟩⟩
                          simp [updateTransaction, hfind, hrole, hcross, hTy, htt, hAE,
                            hTE, truthy, ha0, envelopeUpdateSpent, hex1, hex2',
                            transactionUpdateRow, bumpIf, resolvedRow,
                            resolvedEnvelopeId]
                        · refine ⟨t, rfl,
                            Or.inr ⟨eid, by simp [resolvedEnvelopeId, hAE], hex2⟩,
                            Or.inr ⟨hTy, htt, ?_⟩⟩
                          simp [updateTransaction, hfind, hrole, hcross, hTy, htt, hAE,
                            hTE, truthy, ha0, he0, envelopeUpdateSpent, hex1,
                            hex2', transactionUpdateRow, bumpIf, resolvedRow,
                            resolvedEnvelopeId]
                  | none =>
                    -- resolved link = original link (truthy, exists)
                    have hex2' : envelopeExists
                        (incSpent s.envelopes a
                          (-(spentAdjustmentCalc t.type t.amount))) a = true := by
                      rw [envelopeExists_incSpent, hex1]
                    refine ⟨t, rfl,
                      Or.inr ⟨a, by simp [resolvedEnvelopeId, hAE, hTE], hex1⟩,
                      Or.inr ⟨hTy, htt, ?_⟩⟩
                    simp [updateTransaction, hfind, hrole, hcross, hTy, htt, hAE, hTE,
                      truthy, ha0, envelopeUpdateSpent, hex1, hex2',
                      transactionUpdateRow, bumpIf, resolvedRow, resolvedEnvelopeId]
            | none =>
              -- no original link: step 4a skipped
              cases hAE : args.envelopeId with
              | some v =>
                cases v with
                | none =>
                  refine ⟨t, rfl, Or.inl (by simp [resolvedEnvelopeId, hAE]),
                    Or.inr ⟨hTy, htt, ?_⟩⟩
                  simp [updateTransaction, hfind, hrole, hcross, hTy, htt, hAE, hTE,
                    truthy, transactionUpdateRow, bumpIf, resolvedRow,
                    resolvedEnvelopeId]
                | some eid =>
                  cases hex : envelopeExists s.envelopes eid with
                  | false =>
                    simp [updateTransaction, hfind, hrole, hcross, hTy, htt, hAE, hTE,
                      truthy, transactionUpdateRow, hex, exceptOk] at hok
                  | true =>
                    by_cases he0 : eid = 0
                    · subst he0
                      refine ⟨t, rfl,
                        Or.inr ⟨0, by simp [resolvedEnvelopeId, hAE], hex⟩,
                        Or.inr ⟨hTy, htt, ?_⟩⟩
                      simp [updateTransaction, hfind, hrole, hcross, hTy, htt, hAE, hTE,
                        truthy, transactionUpdateRow, hex, envelopeUpdateSpent,
                        bumpIf, resolvedRow, resolvedEnvelopeId]
                    · refine ⟨t, rfl,
                        Or.inr ⟨eid, by simp [resolvedEnvelopeId, hAE], hex⟩,
                        Or.inr ⟨hTy, htt, ?_⟩⟩
                      simp [updateTransaction, hfind, hrole, hcross, hTy, htt, hAE, hTE,
                        truthy, he0, transactionUpdateRow, hex, envelopeUpdateSpent,
                        bumpIf, resolvedRow, resolvedEnvelopeId]
              | none =>
                refine ⟨t, rfl, Or.inl (by simp [resolvedEnvelopeId, hAE, hTE]),
                  Or.inr ⟨hTy, htt, ?_⟩⟩
                simp [updateTransaction, hfind, hrole, hcross, hTy, htt, hAE, hTE,
                  truthy, transactionUpdateRow, bumpIf, resolvedRow,
                  resolvedEnvelopeId]

-- ========= envSpent lemmas =========

theorem find?_incSpent (envs : List Envelope) (i : Nat) (δ : Int) (e : Nat) :
    (incSpent envs i δ).find? (fun x => x.id == e) =
      (envs.find? (fun x => x.id == e)).map
        (fun x => if x.id == i then { x with spent := x.spent + δ } else x) := by
  induction envs with
  | nil => rfl
  | cons x xs ih =>
    by_cases hx : (x.id == e) = true
    · have hhead : ((if x.id == i then { x with spent := x.spent + δ } else x).id == e) =
          true := by
        rw [incSpent_id]; exact hx
      unfold incSpent at ih ⊢
      simp only [List.map_cons, List.find?_cons, hhead, hx]
      rfl
    · have hx' : (x.id == e) = false := by simpa using hx
      have hhead : ((if x.id == i then { x with spent := x.spent + δ } else x).id == e) =
          false := by
        rw [incSpent_id]; exact hx'
      unfold incSpent at ih ⊢
      simp only [List.map_cons, List.find?_cons, hhead, hx', ih]

theorem envSpent_incSpent (envs : List Envelope) (i : Nat) (δ : Int) (e : Nat) :
    envSpent (incSpent envs i δ) e =
      envSpent envs e + (if e = i ∧ envelopeExists envs e = true then δ else 0) := by
  unfold envSpent
  rw [find?_incSpent]
  cases hf : envs.find? (fun x => x.id == e) with
  | none =>
    have hex : envelopeExists envs e = false := by
      unfold envelopeExists
      rw [List.any_eq_false]
      intro x hx
      have := List.find?_eq_none.mp hf x hx
      simpa using this
    simp [hex]
  | some x =>
    have hx := List.find?_some hf
    have hex : envelopeExists envs e = true := by
      unfold envelopeExists
      rw [List.any_eq_true]
      exact ⟨x, List.mem_of_find?_eq_some hf, hx⟩
    have hxe : x.id = e := beq_iff_eq.mp hx
    by_cases hei : e = i
    · subst hei
      simp [hex, hxe]
    · have hxi : ¬ x.id = i := by rw [hxe]; exact hei
      simp [hex, hei, hxi]

-- ========= C2: moving a transaction between envelopes =========

/-- C2: a successful update that changes only `envelopeId` from envelope A to a
different envelope B decreases A's `spent` by exactly the transaction's signed
adjustment, increases B's by exactly the same amount, and leaves every other
envelope's `spent` unchanged. -/
theorem updateTransaction_move_envelope (s : State) (u : Option Nat) (i a b : Nat)
    (t : Transaction) (mrow : UserBudgetProfile)
    (hWF : WF s)
    (hfind : s.transactions.find? (fun x => x.id == i) = some t)
    (ha : t.envelopeId = some a)
    (hty : t.type ≠ .TRANSFER)
    (hrole : ensureUserRole s u t.budgetProfileId ["MEMBER", "ADMIN", "OWNER"] = .ok mrow)
    (hb0 : b ≠ 0)
    (hab : a ≠ b)
    (hexA : envelopeExists s.envelopes a = true)
    (hexB : envelopeExists s.envelopes b = true) :
    exceptOk (updateTransaction s u ⟨i, none, none, none, none, some (some b)⟩).2 =
      true ∧
    envSpent (updateTransaction s u ⟨i, none, none, none, none, some (some b)⟩).1.envelopes
        a = envSpent s.envelopes a - signedAdjustment t ∧
    envSpent (updateTransaction s u ⟨i, none, none, none, none, some (some b)⟩).1.envelopes
        b = envSpent s.envelopes b + signedAdjustment t ∧
    ∀ e, e ≠ a → e ≠ b →
      envSpent (updateTransaction s u ⟨i, none, none, none, none, some (some b)⟩).1.envelopes
        e = envSpent s.envelopes e := by
  have ha0 : a ≠ 0 := by
    have hmem := List.mem_of_find?_eq_some hfind
    have := hWF.2.2.2 t hmem
    rw [ha] at this
    intro hc
    exact this (by rw [hc])
  cases u with
  | none => simp [ensureUserRole] at hrole
  | some uid =>
    have hexB' : envelopeExists
        (incSpent s.envelopes a (-(spentAdjustmentCalc t.type t.amount))) b = true := by
      rw [envelopeExists_incSpent]
      exact hexB
    have hred : updateTransaction s (some uid) ⟨i, none, none, none, none, some (some b)⟩ =
        ({ s with
            transactions := s.transactions.map (fun x =>
              if x.id == i then
                { t with envelopeId := some b } else x)
            envelopes := incSpent
              (incSpent s.envelopes a (-(spentAdjustmentCalc t.type t.amount))) b
              (spentAdjustmentCalc t.type t.amount) },
          .ok { t with envelopeId := some b }) := by
      simp [updateTransaction, hfind, hrole, hty, ha, truthy, ha0, hb0,
        envelopeUpdateSpent, hexA, hexB', transactionUpdateRow]
    rw [hred]
    refine ⟨rfl, ?_, ?_, ?_⟩
    · rw [signedAdjustment_eq_calc]
      simp only [envSpent_incSpent, envelopeExists_incSpent]
      rw [if_pos (show True ∧ envelopeExists s.envelopes a = true from ⟨trivial, hexA⟩),
        if_neg (show ¬ (a = b ∧ envelopeExists s.envelopes a = true) from
          fun hc => hab hc.1)]
      ring
    · rw [signedAdjustment_eq_calc]
      simp only [envSpent_incSpent, envelopeExists_incSpent]
      rw [if_neg (show ¬ (b = a ∧ envelopeExists s.envelopes b = true) from
          fun hc => hab hc.1.symm),
        if_pos (show True ∧ envelopeExists s.envelopes b = true from ⟨trivial, hexB⟩)]
      ring
    · intro e hea heb
      simp only [envSpent_incSpent, envelopeExists_incSpent]
      rw [if_neg (show ¬ (e = a ∧ envelopeExists s.envelopes e = true) from
          fun hc => hea hc.1),
        if_neg (show ¬ (e = b ∧ envelopeExists s.envelopes e = true) from
          fun hc => heb hc.1)]
      ring

/-- C2 witness: moving the $50 EXPENSE from envelope 1 to envelope 2 succeeds,
moves 50 from envelope 1's `spent` to envelope 2's, and leaves envelope 3 (or
any other id) untouched. -/
theorem updateTransaction_move_envelope_witness :
    exceptOk (updateTransaction storeC2 (some 1)
      ⟨1, none, none, none, none, some (some 2)⟩).2 = true ∧
    envSpent (updateTransaction storeC2 (some 1)
        ⟨1, none, none, none, none, some (some 2)⟩).1.envelopes 1 =
      envSpent storeC2.envelopes 1 -
        signedAdjustment ⟨1, "x", 50, 100, .EXPENSE, some 1, 1⟩ ∧
    envSpent (updateTransaction storeC2 (some 1)
        ⟨1, none, none, none, none, some (some 2)⟩).1.envelopes 2 =
      envSpent storeC2.envelopes 2 +
        signedAdjustment ⟨1, "x", 50, 100, .EXPENSE, some 1, 1⟩ ∧
    envSpent (updateTransaction storeC2 (some 1)
        ⟨1, none, none, none, none, some (some 2)⟩).1.envelopes 3 =
      envSpent storeC2.envelopes 3 := by
  have h := updateTransaction_move_envelope storeC2 (some 1) 1 1 2
    ⟨1, "x", 50, 100, .EXPENSE, some 1, 1⟩ ⟨1, 1, "OWNER"⟩
    (by unfold WF; refine ⟨by decide, ?_, by decide, ?_⟩ <;> decide)
    rfl rfl (by decide) rfl (by decide) (by decide) rfl rfl
  exact ⟨h.1, h.2.1, h.2.2.1, h.2.2.2 3 (by decide) (by decide)⟩

-- ========= C1: balance invariant preservation =========

theorem spentSum_single (t : Transaction) (e : Nat) :
    spentSum [t] e = contrib t e := by
  rw [show [t] = t :: ([] : List Transaction) from rfl, spentSum_cons, spentSum_nil]
  ring

theorem envIds_incSpent (envs : List Envelope) (i : Nat) (δ : Int)
    (h : ∀ env ∈ envs, env.id ≠ 0) : ∀ env ∈ incSpent envs i δ, env.id ≠ 0 := by
  intro env' h'
  unfold incSpent at h'
  obtain ⟨env, henv, heq⟩ := List.mem_map.mp h'
  rw [← heq, incSpent_id]
  exact h env henv

theorem envIds_bumpIf (envs : List Envelope) (link : Option Nat) (δ : Int)
    (h : ∀ env ∈ envs, env.id ≠ 0) : ∀ env ∈ bumpIf envs link δ, env.id ≠ 0 := by
  unfold bumpIf
  by_cases ht : truthy link = true
  · rw [if_pos ht]
    exact envIds_incSpent envs (link.getD 0) δ h
  · rw [if_neg ht]
    exact h

theorem eid_ne_zero_of_exists (envs : List Envelope)
    (h0 : ∀ env ∈ envs, env.id ≠ 0) (eid : Nat)
    (hex : envelopeExists envs eid = true) : eid ≠ 0 := by
  unfold envelopeExists at hex
  obtain ⟨env, henv, henvid⟩ := List.any_eq_true.mp hex
  have hid := beq_iff_eq.mp henvid
  rw [← hid]
  exact h0 env henv

theorem wf_create_state (s : State) (t : Transaction) (newEnvs : List Envelope)
    (hWF : WF s) (hid : t.id = s.nextTxId) (hlink : t.envelopeId ≠ some 0)
    (henv : ∀ env ∈ newEnvs, env.id ≠ 0) :
    WF { s with
        transactions := s.transactions ++ [t]
        envelopes := newEnvs
        nextTxId := s.nextTxId + 1 } := by
  obtain ⟨hnd, hbound, hid0, hl⟩ := hWF
  refine ⟨?_, ?_, henv, ?_⟩
  · rw [List.map_append]
    refine List.Nodup.append hnd (List.nodup_singleton _) ?_
    intro a ha hb
    simp only [List.map_cons, List.map_nil, List.mem_singleton] at hb
    obtain ⟨x, hx, hxa⟩ := List.mem_map.mp ha
    have := hbound x hx
    rw [hxa, hb, hid] at this
    exact Nat.lt_irrefl _ this
  · intro x hx
    rcases List.mem_append.mp hx with h | h
    · exact Nat.lt_trans (hbound x h) (Nat.lt_succ_self _)
    · rw [List.mem_singleton] at h
      rw [h, hid]
      exact Nat.lt_succ_self _
  · intro x hx
    rcases List.mem_append.mp hx with h | h
    · exact hl x h
    · rw [List.mem_singleton] at h
      rw [h]
      exact hlink

theorem map_ids_replace (l : List Transaction) (i : Nat) (t' : Transaction)
    (hid : t'.id = i) :
    (l.map (fun x => if x.id == i then t' else x)).map (fun x => x.id) =
      l.map (fun x => x.id) := by
  induction l with
  | nil => rfl
  | cons x xs ih =>
    simp only [List.map_cons, ih]
    by_cases hx : (x.id == i) = true
    · rw [if_pos hx, hid, beq_iff_eq.mp hx]
    · rw [if_neg hx]

theorem mem_replace_cases (l : List Transaction) (i : Nat) (t' : Transaction)
    (x' : Transaction) (hx' : x' ∈ l.map (fun x => if x.id == i then t' else x)) :
    x' = t' ∨ x' ∈ l := by
  obtain ⟨x, hx, heq⟩ := List.mem_map.mp hx'
  by_cases hxx : (x.id == i) = true
  · rw [if_pos hxx] at heq
    exact Or.inl heq.symm
  · rw [if_neg hxx] at heq
    exact Or.inr (heq ▸ hx)

/-- Inv and WF are preserved by every successful `createTransaction`. -/
theorem createTransaction_preserves (s : State) (u : Option Nat)
    (args : CreateTransactionInput)
    (hok : exceptOk (createTransaction s u args).2 = true)
    (hWF : WF s) (hInv : Inv s) :
    WF (createTransaction s u args).1 ∧ Inv (createTransaction s u args).1 := by
  obtain ⟨pid, hty, hcase⟩ := createTransaction_ok_shape s u args hok
  rcases hcase with ⟨htr, heq⟩ | ⟨eid, hargs, hnz, hex, heq⟩
  · rw [heq]
    constructor
    · refine wf_create_state s _ s.envelopes hWF ?_ ?_ hWF.2.2.1
      · rfl
      · simp
    · intro env henv
      simp only at henv ⊢
      rw [spentSum_append, spentSum_single, contrib_of_none _ _ rfl]
      have := hInv env henv
      rw [this]
      ring
  · rw [heq]
    constructor
    · refine wf_create_state s _ _ hWF ?_ ?_ (envIds_incSpent _ _ _ hWF.2.2.1)
      · rfl
      · intro hc
        exact hnz (by injection hc)
    · intro env' henv'
      simp only at henv' ⊢
      unfold incSpent at henv'
      obtain ⟨env, henv, heqe⟩ := List.mem_map.mp henv'
      rw [spentSum_append, spentSum_single]
      have hbase := hInv env henv
      by_cases hxe : (env.id == eid) = true
      · rw [if_pos hxe] at heqe
        rw [← heqe]
        simp only
        have hide : env.id = eid := beq_iff_eq.mp hxe
        rw [contrib_of_link _ _ hty]
        rw [if_pos (by rw [hide])]
        rw [signedAdjustment_eq_calc]
        simp only
        rw [hbase, hide]
      · rw [if_neg hxe] at heqe
        rw [← heqe]
        rw [contrib_of_link _ _ hty]
        rw [if_neg (by
          intro hc
          exact hxe (beq_iff_eq.mpr (by injection hc with h; exact h.symm)))]
        rw [hbase]
        ring

/-- Inv and WF are preserved by every successful `deleteTransaction`. -/
theorem deleteTransaction_preserves (s : State) (u : Option Nat)
    (args : DeleteTransactionInput)
    (hok : exceptOk (deleteTransaction s u args).2 = true)
    (hWF : WF s) (hInv : Inv s) :
    WF (deleteTransaction s u args).1 ∧ Inv (deleteTransaction s u args).1 := by
  obtain ⟨t, hfind, hty, hfk, heq⟩ := deleteTransaction_ok_shape s u args hok
  rw [heq]
  have hnd := hWF.1
  constructor
  · refine ⟨?_, ?_, envIds_bumpIf _ _ _ hWF.2.2.1, ?_⟩
    · exact hnd.sublist ((List.filter_sublist _).map _)
    · intro x hx
      exact hWF.2.1 x (List.mem_of_mem_filter hx)
    · intro x hx
      exact hWF.2.2.2 x (List.mem_of_mem_filter hx)
  · intro env' henv'
    simp only at henv' ⊢
    obtain ⟨env, henv, hid, hsp⟩ := row_after_bumpIf _ _ _ env' henv'
    have h0 : env.id ≠ 0 := hWF.2.2.1 env henv
    rw [hsp, hInv env henv, hid,
      spentSum_erase s.transactions args.id t env.id hnd hfind,
      contrib_of_link t env.id hty]
    by_cases hl : t.envelopeId = some env.id
    · rw [if_pos ⟨hl, h0⟩, if_pos hl, signedAdjustment_eq_calc]
      ring
    · rw [if_neg (fun hc => hl hc.1), if_neg hl]
      ring

/-- Inv and WF are preserved by every successful `updateTransaction`. -/
theorem updateTransaction_preserves (s : State) (u : Option Nat)
    (args : UpdateTransactionInput)
    (hok : exceptOk (updateTransaction s u args).2 = true)
    (hWF : WF s) (hInv : Inv s) :
    WF (updateTransaction s u args).1 ∧ Inv (updateTransaction s u args).1 := by
  obtain ⟨t, hfind, hfk, hcase⟩ := updateTransaction_ok_shape s u args hok
  have hnd := hWF.1
  have htid : t.id = args.id := by simpa using List.find?_some hfind
  have hrid : (resolvedRow args t).id = args.id := by
    simp [resolvedRow]
    exact htid
  have htmem : t ∈ s.transactions := List.mem_of_find?_eq_some hfind
  have hlink' : (resolvedRow args t).envelopeId ≠ some 0 := by
    simp only [resolvedRow]
    rcases hfk with h | ⟨eid, h, hex⟩
    · simp [h]
    · rw [h]
      intro hc
      exact eid_ne_zero_of_exists s.envelopes hWF.2.2.1 eid hex (by injection hc)
  have hwfT : ∀ (newEnvs : List Envelope), (∀ env ∈ newEnvs, env.id ≠ 0) →
      WF { s with
        transactions := s.transactions.map (fun x =>
          if x.id == args.id then resolvedRow args t else x)
        envelopes := newEnvs } := by
    intro newEnvs henvs
    refine ⟨?_, ?_, henvs, ?_⟩
    · rw [map_ids_replace _ _ _ hrid]
      exact hnd
    · intro x hx
      rcases mem_replace_cases _ _ _ x hx with h | h
      · rw [h, hrid, ← htid]
        exact hWF.2.1 t htmem
      · exact hWF.2.1 x h
    · intro x hx
      rcases mem_replace_cases _ _ _ x hx with h | h
      · rw [h]
        exact hlink'
      · exact hWF.2.2.2 x h
  rcases hcase with ⟨hTy, htt, heq⟩ | ⟨hTy, htt, heq⟩
  · -- transfer simple update: no envelope changes
    rw [heq]
    constructor
    · exact hwfT s.envelopes hWF.2.2.1
    · intro env henv
      simp only at henv ⊢
      rw [spentSum_replace s.transactions args.id t (resolvedRow args t) env.id hnd
        hfind, contrib_of_transfer t env.id htt,
        contrib_of_transfer (resolvedRow args t) env.id (by simp [resolvedRow, hTy]),
        hInv env henv]
      ring
  · -- balance-adjusting update
    rw [heq]
    constructor
    · exact hwfT _ (envIds_bumpIf _ _ _ (envIds_bumpIf _ _ _ hWF.2.2.1))
    · intro env' henv'
      simp only at henv' ⊢
      obtain ⟨env1, henv1, hid1, hsp1⟩ := row_after_bumpIf _ _ _ env' henv'
      obtain ⟨env0, henv0, hid0, hsp0⟩ := row_after_bumpIf _ _ _ env1 henv1
      have h0 : env0.id ≠ 0 := hWF.2.2.1 env0 henv0
      have hadj : signedAdjustment t = spentAdjustmentCalc t.type t.amount :=
        signedAdjustment_eq_calc t
      have hadj' : signedAdjustment (resolvedRow args t) =
          spentAdjustmentCalc (args.type.getD t.type) (args.amount.getD t.amount) := by
        rw [signedAdjustment_eq_calc]
        simp [resolvedRow]
      rw [hsp1, hsp0, hid1, hid0,
        spentSum_replace s.transactions args.id t (resolvedRow args t) env0.id hnd
          hfind, hInv env0 henv0,
        contrib_of_link t env0.id htt,
        contrib_of_link (resolvedRow args t) env0.id (by simp [resolvedRow]; exact hTy)]
      have hre : (resolvedRow args t).envelopeId = resolvedEnvelopeId args t := rfl
      rw [hre, hadj, hadj']
      by_cases hl1 : t.envelopeId = some env0.id
      · rw [if_pos ⟨hl1, h0⟩, if_pos hl1]
        by_cases hl2 : resolvedEnvelopeId args t = some env0.id
        · rw [if_pos ⟨hl2, h0⟩, if_pos hl2]
          ring
        · rw [if_neg (fun hc => hl2 hc.1), if_neg hl2]
          ring
      · rw [if_neg (fun hc => hl1 hc.1), if_neg hl1]
        by_cases hl2 : resolvedEnvelopeId args t = some env0.id
        · rw [if_pos ⟨hl2, h0⟩, if_pos hl2]
          ring
        · rw [if_neg (fun hc => hl2 hc.1), if_neg hl2]
          ring

theorem step_preserves (s s' : State) (h : Step s s') (hWF : WF s) (hInv : Inv s) :
    WF s' ∧ Inv s' := by
  cases h with
  | create u args ok => exact createTransaction_preserves s u args ok hWF hInv
  | update u args ok => exact updateTransaction_preserves s u args ok hWF hInv
  | delete u args ok => exact deleteTransaction_preserves s u args ok hWF hInv

/-- C1: starting from a well-formed store whose envelopes satisfy the balance
invariant, after any sequence of successful createTransaction /
updateTransaction / deleteTransaction calls every envelope's `spent` equals the
sum of signed adjustments (+amount for EXPENSE, -amount for INCOME) over the
non-deleted, non-transfer transactions currently linked to it. -/
theorem spent_invariant (s s' : State) (h : Reaches s s')
    (hWF : WF s) (hInv : Inv s) :
    ∀ env ∈ s'.envelopes, env.spent = spentSum s'.transactions env.id := by
  have hgood : WF s' ∧ Inv s' := by
    unfold Reaches at h
    induction h with
    | refl => exact ⟨hWF, hInv⟩
    | tail hr hstep ih => exact step_preserves _ _ hstep ih.1 ih.2
  exact hgood.2

/-- C1 witness: the spec scenario - creating a $50 EXPENSE in envelope 1 of an
empty, well-formed store yields spent = 50 = the signed-adjustment sum of the
transactions now linked to envelope 1. -/
theorem spent_invariant_witness :
    WF store0 ∧ Inv store0 ∧
    (⟨1, 1, 50⟩ : Envelope).spent =
      spentSum (createTransaction store0 (some 1)
        ⟨"Groceries", 50, 10, .EXPENSE, some 1⟩).1.transactions
        (⟨1, 1, 50⟩ : Envelope).id := by
  have hWF : WF store0 := by
    unfold WF
    refine ⟨by decide, by decide, by decide, by decide⟩
  have hInv : Inv store0 := by
    unfold Inv
    decide
  refine ⟨hWF, hInv, ?_⟩
  have h := spent_invariant store0
    (createTransaction store0 (some 1) ⟨"Groceries", 50, 10, .EXPENSE, some 1⟩).1
    (Relation.ReflTransGen.single
      (Step.create store0 (some 1) ⟨"Groceries", 50, 10, .EXPENSE, some 1⟩
        (by decide)))
    hWF hInv
  exact h ⟨1, 1, 50⟩ (by decide)

end EnvelopeBudget
